import Mathlib

/-!
# TIM 2.0, basic JWT usage example: a verification development

Part I embeds `examples/basic-jwt-usage/index.js`: the script `main`, the values it
reads from the responses, the requests it hands to `axios.post`, the lines it prints
and the exit code it ends with.

Part II models the token lifecycle engine the script talks to (Token Store,
Authorize, List, Extend, Revoke).  The engine's code is not part of the sources at
hand, those definitions follow the written specification and say so.
-/

namespace TIM

/-! ## Part I. The example script -/

/-- A JavaScript value as the script meets it: parsed response data, the value of a
missing property (`undefined`), and the object literals it passes to `axios.post`. -/
inductive JsVal where
  | undefined
  | null
  | bool (b : Bool)
  | num (n : Int)
  | str (s : String)
  | arr (items : List JsVal)
  | obj (fields : List (String × JsVal))

/-- How an `axios.post` promise can reject: with a response (status outside 2xx), with
a request that got no response, or before a request was made. -/
inductive AxiosFailure where
  | response (status : Int) (data : JsVal)
  | request
  | setup (message : String)

/-- What the `catch` block of `main` can receive. -/
inductive Thrown where
  | axios (f : AxiosFailure)
  | typeError
  | syntaxError

/-- Outcome of awaiting `axios.post`. -/
inductive Reply where
  | resolved (data : JsVal)
  | rejected (f : AxiosFailure)

/-- The arguments of one `axios.post(url, data, config)` call; `headers` is
`config.headers`, empty when no config is passed. -/
structure Request where
  url : String
  data : JsVal
  headers : List (String × String)

/-- One printed line: `log(message, color)` with a fixed message, a message that
interpolates values, `step(number, description)`, or the `error.message` line. -/
inductive Line where
  | text (color : String) (message : String)
  | field (color : String) (label : String) (values : List JsVal)
  | step (number : Nat) (description : String)
  | errorMessage (e : Thrown)

/-- Observable events of a run, in program order. -/
inductive Event where
  | post (r : Request)
  | log (l : Line)
  | exit (code : Nat)

/-- Builtins of the JavaScript runtime that the script reaches through
`jsonwebtoken`, and the coercing comparison `v > 0` on a value that is not a number. -/
structure Builtins where
  /-- `Buffer.from(s, 'base64').toString('binary')` -/
  base64Binary : String → String
  /-- `Buffer.from(s, 'base64').toString('utf8')` -/
  base64Utf8 : String → String
  /-- `JSON.parse(s)`, `none` when it throws a SyntaxError -/
  jsonParse : String → Option JsVal
  /-- `v > 0` for a `v` that is neither a number nor `undefined` and whose conversion to
  a primitive does not throw -/
  gtZero : JsVal → Bool

/-- The server (and network) as the script sees it: the outcome of a request, given the
requests sent before it. -/
abbrev Net := List Request → Request → Reply

/-- First entry of an object's field list under a key. -/
def lookupField (key : String) : List (String × JsVal) → Option JsVal
  | [] => none
  | (k, v) :: rest => if k = key then some v else lookupField key rest

mutual
/-- Whether converting a value to a string, as a template's `${v}` does, throws a
TypeError.  An object with an own field `toString` has a `toString` that cannot be
called, and the inherited `valueOf` gives back the object, so the conversion fails; an
array is joined, converting each element (`null` and `undefined` give the empty
string); every other value converts. -/
def toStringThrows : JsVal → Bool
  | .obj fields => (lookupField "toString" fields).isSome
  | .arr items => anyToStringThrows items
  | _ => false
/-- Whether the conversion of some element of an array throws. -/
def anyToStringThrows : List JsVal → Bool
  | [] => false
  | v :: rest => toStringThrows v || anyToStringThrows rest
end

/-- Number of UTF-16 code units of a string, the value of `s.length`. -/
def utf16Length (s : String) : Nat :=
  (s.toList.map (fun c => if c.toNat < 65536 then 1 else 2)).sum

/-- Property read `v.key` (or `v[key]`): throws a TypeError on `null` and `undefined`;
`length` of arrays and strings; own fields of objects; `undefined` otherwise. -/
def getProp (v : JsVal) (key : String) : Except Thrown JsVal :=
  match v with
  | .undefined => .error .typeError
  | .null => .error .typeError
  | .obj fields => .ok ((lookupField key fields).getD .undefined)
  | .arr items => if key = "length" then .ok (.num items.length) else .ok .undefined
  | .str s => if key = "length" then .ok (.num (utf16Length s)) else .ok .undefined
  | _ => .ok .undefined

/-- Element read `v[0]`.  For a string the result is its first code unit (written here
as the first character), for an object the field named `0`. -/
def getIndex0 (v : JsVal) : Except Thrown JsVal :=
  match v with
  | .undefined => .error .typeError
  | .null => .error .typeError
  | .arr items => .ok (items.head?.getD .undefined)
  | .str s => .ok (if s.isEmpty then .undefined else .str (s.take 1))
  | .obj fields => .ok ((lookupField "0" fields).getD .undefined)
  | _ => .ok .undefined

/-- Comparison `v > 0`.  An object or array is first converted to a primitive, which
throws a TypeError in the cases `toStringThrows` gives (the inherited `valueOf` is
tried first and gives back the object, then `toString`). -/
def jsGtZero (lib : Builtins) (v : JsVal) : Except Thrown Bool :=
  match v with
  | .num n => .ok (decide (0 < n))
  | .undefined => .ok false
  | w => if toStringThrows w then .error .typeError else .ok (lib.gtZero w)

/-- Truthiness `!!v`. -/
def truthy (v : JsVal) : Bool :=
  match v with
  | .undefined => false
  | .null => false
  | .bool b => b
  | .num n => decide (n ≠ 0)
  | .str s => !s.isEmpty
  | _ => true

/-! ### `jwt.decode` of the `jsonwebtoken` package -/

/-- Characters of the class `[a-zA-Z0-9\-_]`. -/
def isBase64UrlChar (c : Char) : Bool :=
  c.isAlphanum || c = '-' || c = '_'

/-- Pieces of a character list between dots. -/
def splitDots : List Char → List (List Char)
  | [] => [[]]
  | c :: rest =>
    if c = '.' then [] :: splitDots rest
    else
      match splitDots rest with
      | [] => [[c]]
      | seg :: segs => (c :: seg) :: segs

/-- The three segments of a string matching
`/^[a-zA-Z0-9\-_]+?\.[a-zA-Z0-9\-_]+?\.([a-zA-Z0-9\-_]+)?$/`, `none` when it does not
match. -/
def jwsSegments (token : String) : Option (String × String × String) :=
  match splitDots token.toList with
  | [h, p, s] =>
    if !h.isEmpty && h.all isBase64UrlChar && !p.isEmpty && p.all isBase64UrlChar
        && s.all isBase64UrlChar
    then some (String.mk h, String.mk p, String.mk s)
    else none
  | _ => none

/-- The package's `jws.decode(token, opts)` with `opts.json` unset: `null` unless the
token has the three-segment shape and a truthy JSON header; the payload is parsed when
the header's `typ` is `JWT` (a SyntaxError propagates).  No key is involved and the
signature segment is returned as it stands. -/
def jwsDecode (lib : Builtins) (token : String) : Except Thrown (Option (JsVal × JsVal × String)) :=
  match jwsSegments token with
  | none => .ok none
  | some (h, p, s) =>
    match lib.jsonParse (lib.base64Binary h) with
    | none => .ok none
    | some header =>
      if !truthy header then .ok none
      else
        let payload := lib.base64Utf8 p
        match getProp header "typ" with
        | .ok (.str "JWT") =>
          match lib.jsonParse payload with
          | none => .error .syntaxError
          | some parsed => .ok (some (header, parsed, s))
        | _ => .ok (some (header, .str payload, s))

/-- The package's `typeof v === 'object' && v !== null`. -/
def isObjectLike (v : JsVal) : Bool :=
  match v with
  | .arr _ => true
  | .obj _ => true
  | _ => false

/-- The call `jwt.decode(token, { complete: true })`: `null` when `jws.decode` gives
`null`; otherwise header, payload (a string payload is replaced by its JSON value when
that is an object) and signature. -/
def jwtDecode (lib : Builtins) (token : String) : Except Thrown JsVal :=
  match jwsDecode lib token with
  | .error e => .error e
  | .ok none => .ok .null
  | .ok (some (header, payload, signature)) =>
    let payload2 :=
      match payload with
      | .str text =>
        match lib.jsonParse text with
        | some parsed => if isObjectLike parsed then parsed else payload
        | none => payload
      | other => other
    .ok (.obj [("header", header), ("payload", payload2), ("signature", .str signature)])

/-! ### `main` -/

/-- The constant `TIM_API_URL`: `process.env.TIM_API_URL || 'http://localhost:8085'`. -/
def TIM_API_URL (envVar : Option String) : String :=
  match envVar with
  | some s => if s.isEmpty then "http://localhost:8085" else s
  | none => "http://localhost:8085"

/-- The call `log(message, color)`. -/
def log (message : String) (color : String) : Event :=
  .log (.text color message)

/-- The call `step(number, description)`. -/
def step (number : Nat) (description : String) : Event :=
  .log (.step number description)

/-- A `log` call whose template interpolates values. -/
def logField (label : String) (values : List JsVal) : Event :=
  .log (.field "yellow" label values)

/-- The string `'━'.repeat(40)`. -/
def rule40 : String := String.join (List.replicate 40 "━")

/-- The `catch (error)` block: report the error, then `process.exit(1)`. -/
def catchBlock (api : String) (error : Thrown) : List Event :=
  log "\n❌ Error occurred:" "red" ::
  (match error with
    | .axios (.response status data) =>
      [.log (.field "red" "   Status: " [.num status]),
       .log (.field "red" "   Message: " [data])]
    | .axios .request =>
      [log "   No response received from TIM API" "red",
       .log (.field "red" "   Is TIM running at ?" [.str api])]
    | e => [.log (.errorMessage e)])
  ++ [.exit 1]

/-- A `log` call whose template interpolates one value, followed by the rest of the
`try` block: the conversion of the value to a string may throw a TypeError, which goes
to the `catch` block; otherwise the line is printed and the run goes on. -/
def logValue (api : String) (label : String) (value : JsVal) (rest : List Event) :
    List Event :=
  if toStringThrows value then catchBlock api .typeError
  else logField label [value] :: rest

/-- Body of the request of step 1. -/
def generateBody : JsVal :=
  .obj [("JWTName", .str "example-token"),
        ("content", .obj [("sub", .str "user123"), ("role", .str "user"),
                          ("email", .str "user@example.com"),
                          ("customClaim", .str "custom-value")]),
        ("expirationInMinutes", .num 60)]

/-- Request of step 1: no config argument. -/
def generateRequest (api : String) : Request :=
  { url := api ++ "/jwt/custom/generate", data := generateBody, headers := [] }

/-- The `config` of steps 3 to 6. -/
def bearerHeaders (token : String) : List (String × String) :=
  [("Authorization", "Bearer " ++ token)]

/-- Request of steps 3 and 5. -/
def listRequest (api : String) (token : String) : Request :=
  { url := api ++ "/jwt/custom/list/me", data := .obj [], headers := bearerHeaders token }

/-- Request of step 4. -/
def extendRequest (api : String) (token : String) (tokenId : JsVal) : Request :=
  { url := api ++ "/jwt/custom/extend",
    data := .obj [("tokenId", tokenId), ("extensionInMinutes", .num 30)],
    headers := bearerHeaders token }

/-- Request of step 6. -/
def revokeRequest (api : String) (token : String) (tokenId : JsVal) : Request :=
  { url := api ++ "/jwt/custom/revoke", data := .obj [("tokenId", tokenId)],
    headers := bearerHeaders token }

/-- The summary printed at the end of the `try` block. -/
def summary : List Event :=
  [log (String.join (List.replicate 40 "\n━")) "blue",
   log "✨ Example completed successfully!" "green",
   log (rule40 ++ "\n") "blue"]

/-- Step 6 after the revoke response arrived. -/
def afterRevoke (api : String) (data : JsVal) : List Event :=
  log "   Token revoked successfully" "yellow" ::
  match getProp data "status" with
  | .error e => catchBlock api e
  | .ok status => logValue api "   Status: " status summary

/-- Step 6: revoke. -/
def step6 (api : String) (net : Net) (token : String) (tokenId : JsVal)
    (sent : List Request) : List Event :=
  step 6 "Revoke Token" :: .post (revokeRequest api token tokenId) ::
  match net sent (revokeRequest api token tokenId) with
  | .rejected f => catchBlock api (.axios f)
  | .resolved data => afterRevoke api data

/-- Step 5: the authenticated request. -/
def step5 (api : String) (net : Net) (token : String) (tokenId : JsVal)
    (sent : List Request) : List Event :=
  step 5 "Make Authenticated Request" :: .post (listRequest api token) ::
  match net sent (listRequest api token) with
  | .rejected f => catchBlock api (.axios f)
  | .resolved data =>
    log "   Request successful!" "yellow" ::
    match getProp data "length" with
    | .error e => catchBlock api e
    | .ok n =>
      logValue api "   User tokens: " n
        (step6 api net token tokenId (sent ++ [listRequest api token]))

/-- Step 4: extend. -/
def step4 (api : String) (net : Net) (token : String) (tokenId : JsVal)
    (sent : List Request) : List Event :=
  step 4 "Extend Token Expiration" :: .post (extendRequest api token tokenId) ::
  match net sent (extendRequest api token tokenId) with
  | .rejected f => catchBlock api (.axios f)
  | .resolved data =>
    match getProp data "expiresAt" with
    | .error e => catchBlock api e
    | .ok expiresAt =>
      logValue api "   New expiration: " expiresAt
        (log "   Extended by: 30 minutes" "yellow" ::
          step5 api net token tokenId (sent ++ [extendRequest api token tokenId]))

/-- The `if (listResponse.data.length > 0)` block of step 3: read the first entry and
print its name and status, each converted to a string as soon as it is read. -/
def latestToken (api : String) (data : JsVal) (rest : List Event) : List Event :=
  match getIndex0 data with
  | .error e => catchBlock api e
  | .ok firstToken =>
    match getProp firstToken "jwtName" with
    | .error e => catchBlock api e
    | .ok jwtName =>
      if toStringThrows jwtName then catchBlock api .typeError
      else
        match getProp firstToken "status" with
        | .error e => catchBlock api e
        | .ok status =>
          if toStringThrows status then catchBlock api .typeError
          else logField "   Latest:  ()" [jwtName, status] :: rest

/-- Step 3 after the list response arrived: the count, and the first entry when
`data.length > 0`. -/
def afterList (lib : Builtins) (api : String) (net : Net) (token : String)
    (tokenId : JsVal) (sent : List Request) (data : JsVal) : List Event :=
  match getProp data "length" with
  | .error e => catchBlock api e
  | .ok n =>
    logValue api "   Found  token(s)" n
      (match jsGtZero lib n with
        | .error e => catchBlock api e
        | .ok true => latestToken api data (step4 api net token tokenId sent)
        | .ok false => step4 api net token tokenId sent)

/-- Step 3: list. -/
def step3 (lib : Builtins) (api : String) (net : Net) (token : String)
    (tokenId : JsVal) (sent : List Request) : List Event :=
  step 3 "List User Tokens" :: .post (listRequest api token) ::
  match net sent (listRequest api token) with
  | .rejected f => catchBlock api (.axios f)
  | .resolved data =>
    afterList lib api net token tokenId (sent ++ [listRequest api token]) data

/-- Step 2: client-side decode.  `JSON.stringify` of the header and of the payload
gives a string (or `undefined`), which the template prints. -/
def step2 (lib : Builtins) (api : String) (net : Net) (token : String)
    (tokenId : JsVal) (sent : List Request) : List Event :=
  step 2 "Decode Token (Client-Side)" ::
  match jwtDecode lib token with
  | .error e => catchBlock api e
  | .ok decoded =>
    match getProp decoded "header" with
    | .error e => catchBlock api e
    | .ok header =>
      logField "   Header: " [header] ::
      match getProp decoded "payload" with
      | .error e => catchBlock api e
      | .ok payload =>
        logField "   Payload: " [payload] ::
        step3 lib api net token tokenId sent

/-- Step 1 after the generate response arrived: bind `token`, `tokenId`, `expiresAt`
and print them, `tokenId` and `expiresAt` through a template.  `token.substring(0, 50)`
throws a TypeError unless `token` is a string; past that line `token` is a string and
the template `Bearer ${token}` appends it. -/
def afterGenerate (lib : Builtins) (api : String) (net : Net) (data : JsVal) : List Event :=
  match getProp data "token" with
  | .error e => catchBlock api e
  | .ok token =>
    match getProp data "tokenId" with
    | .error e => catchBlock api e
    | .ok tokenId =>
      match getProp data "expiresAt" with
      | .error e => catchBlock api e
      | .ok expiresAt =>
        logValue api "   Token ID: " tokenId
          (logValue api "   Expires: " expiresAt
            (match token with
              | .str tokenText =>
                logField "   Token: ..." [.str (tokenText.take 50)] ::
                step2 lib api net tokenText tokenId [generateRequest api]
              | _ => catchBlock api .typeError))

/-- The function `main`, as the events of one run.  The `await wait(500)` pauses have
no event of their own. -/
def main (lib : Builtins) (envVar : Option String) (net : Net) : List Event :=
  log "\n🚀 TIM 2.0 - Basic JWT Usage Example" "bright" ::
  log rule40 "blue" ::
  step 1 "Generate JWT Token" ::
  .post (generateRequest (TIM_API_URL envVar)) ::
  match net [] (generateRequest (TIM_API_URL envVar)) with
  | .rejected f => catchBlock (TIM_API_URL envVar) (.axios f)
  | .resolved data => afterGenerate lib (TIM_API_URL envVar) net data

/-- Requests of a run, in the order sent. -/
def requests : List Event → List Request
  | [] => []
  | .post r :: rest => r :: requests rest
  | _ :: rest => requests rest

/-- Exit code passed to `process.exit`, `none` when the run never calls it. -/
def exitCode : List Event → Option Nat
  | [] => none
  | .exit code :: _ => some code
  | _ :: rest => exitCode rest

/-- Whether the line announcing success was printed. -/
def summaryPrinted : List Event → Bool
  | [] => false
  | .log (.text _ message) :: rest =>
    message = "✨ Example completed successfully!" || summaryPrinted rest
  | _ :: rest => summaryPrinted rest

/-! ### Reference builtins, for running the script on sample responses -/

/-- Value of a character in the base64 alphabets (standard and URL-safe). -/
def base64Value (c : Char) : Option Nat :=
  if 'A' ≤ c ∧ c ≤ 'Z' then some (c.toNat - 65)
  else if 'a' ≤ c ∧ c ≤ 'z' then some (c.toNat - 97 + 26)
  else if '0' ≤ c ∧ c ≤ '9' then some (c.toNat - 48 + 52)
  else if c = '-' ∨ c = '+' then some 62
  else if c = '_' ∨ c = '/' then some 63
  else none

/-- Bytes encoded by a sequence of 6-bit values. -/
def base64Bytes : List Nat → List Nat
  | a :: b :: c :: d :: rest =>
    (a * 4 + b / 16) :: ((b % 16) * 16 + c / 4) :: ((c % 4) * 64 + d) :: base64Bytes rest
  | [a, b, c] => [a * 4 + b / 16, (b % 16) * 16 + c / 4]
  | [a, b] => [a * 4 + b / 16]
  | _ => []

/-- Base64 decoding to a string with one character per byte (exact for `binary`, and
for `utf8` when the bytes are ASCII). -/
def refBase64 (s : String) : String :=
  String.mk ((base64Bytes (s.toList.filterMap base64Value)).map Char.ofNat)

/-- Drop JSON whitespace. -/
def skipWs : List Char → List Char
  | c :: rest => if c = ' ' ∨ c = '\n' ∨ c = '\r' ∨ c = '\t' then skipWs rest else c :: rest
  | [] => []

/-- Rest of a JSON string after its opening quote: the text and what follows the
closing quote.  Of the escapes, the two-character ones are read. -/
def parseStringBody : List Char → List Char → Option (String × List Char)
  | _, [] => none
  | acc, '"' :: rest => some (String.mk acc.reverse, rest)
  | acc, '\\' :: e :: rest =>
    if e = '"' ∨ e = '\\' ∨ e = '/' then parseStringBody (e :: acc) rest
    else if e = 'n' then parseStringBody ('\n' :: acc) rest
    else if e = 't' then parseStringBody ('\t' :: acc) rest
    else if e = 'r' then parseStringBody ('\r' :: acc) rest
    else none
  | _, ['\\'] => none
  | acc, c :: rest => if c.toNat < 32 then none else parseStringBody (c :: acc) rest

/-- Leading decimal digits as a number, and the rest. -/
def parseDigits : Nat → List Char → Nat × List Char
  | acc, c :: rest =>
    if c.isDigit then parseDigits (acc * 10 + (c.toNat - 48)) rest else (acc, c :: rest)
  | acc, [] => (acc, [])

mutual
/-- One JSON value (integers for numbers) and the unread rest. -/
def parseValue : Nat → List Char → Option (JsVal × List Char)
  | 0, _ => none
  | fuel + 1, cs =>
    match skipWs cs with
    | 'n' :: 'u' :: 'l' :: 'l' :: rest => some (.null, rest)
    | 't' :: 'r' :: 'u' :: 'e' :: rest => some (.bool true, rest)
    | 'f' :: 'a' :: 'l' :: 's' :: 'e' :: rest => some (.bool false, rest)
    | '"' :: rest => (parseStringBody [] rest).map (fun (s, r) => (.str s, r))
    | '[' :: rest =>
      match skipWs rest with
      | ']' :: r => some (.arr [], r)
      | r => (parseElements fuel r).map (fun (xs, r2) => (.arr xs, r2))
    | '{' :: rest =>
      match skipWs rest with
      | '}' :: r => some (.obj [], r)
      | r => (parseMembers fuel r).map (fun (kvs, r2) => (.obj kvs, r2))
    | '-' :: d :: rest =>
      if d.isDigit then
        match parseDigits 0 (d :: rest) with
        | (n, r) => some (.num (-(n : Int)), r)
      else none
    | d :: rest =>
      if d.isDigit then
        match parseDigits 0 (d :: rest) with
        | (n, r) => some (.num (n : Int), r)
      else none
    | [] => none
/-- Elements of a non-empty array up to and including the closing bracket. -/
def parseElements : Nat → List Char → Option (List JsVal × List Char)
  | 0, _ => none
  | fuel + 1, cs =>
    match parseValue fuel cs with
    | none => none
    | some (v, r) =>
      match skipWs r with
      | ']' :: r2 => some ([v], r2)
      | ',' :: r2 => (parseElements fuel r2).map (fun (vs, r3) => (v :: vs, r3))
      | _ => none
/-- Members of a non-empty object up to and including the closing brace. -/
def parseMembers : Nat → List Char → Option (List (String × JsVal) × List Char)
  | 0, _ => none
  | fuel + 1, cs =>
    match skipWs cs with
    | '"' :: r =>
      match parseStringBody [] r with
      | none => none
      | some (k, r1) =>
        match skipWs r1 with
        | ':' :: r2 =>
          match parseValue fuel r2 with
          | none => none
          | some (v, r3) =>
            match skipWs r3 with
            | '}' :: r4 => some ([(k, v)], r4)
            | ',' :: r4 => (parseMembers fuel r4).map (fun (kvs, r5) => ((k, v) :: kvs, r5))
            | _ => none
        | _ => none
    | _ => none
end

/-- JSON text to value: integers, strings with two-character escapes, literals, arrays
and objects; `none` for anything else. -/
def refJsonParse (s : String) : Option JsVal :=
  match parseValue (2 * s.length + 2) s.toList with
  | some (v, rest) => if (skipWs rest).isEmpty then some v else none
  | none => none

/-- Builtins for sample runs: tokens whose segments decode to ASCII JSON within the
subset `refJsonParse` reads, and list responses that are arrays (their `length` is a
number, so the coercing comparison is not consulted; it is given for booleans only). -/
def refBuiltins : Builtins :=
  { base64Binary := refBase64,
    base64Utf8 := refBase64,
    jsonParse := refJsonParse,
    gtZero := fun v => match v with
      | .bool b => b
      | _ => false }

/-! ### Sample responses -/

/-- Header and payload segments of a sample token: `{"alg":"HS256","typ":"JWT"}` and
`{"sub":"user123"}`. -/
def sampleSigningInput : String :=
  "eyJhbGciOiJIUzI1NiIsInR5cCI6IkpXVCJ9.eyJzdWIiOiJ1c2VyMTIzIn0"

/-- A sample token with the given signature segment. -/
def sampleToken (signature : String) : String :=
  sampleSigningInput ++ "." ++ signature

/-- One entry of a list response. -/
def sampleView (status : String) : JsVal :=
  .obj [("tokenId", .str "t1"), ("jwtName", .str "example-token"), ("status", .str status),
        ("issuedAt", .str "2025-01-01T00:00:00Z"), ("expiresAt", .str "2025-01-01T01:00:00Z")]

/-- A server that answers every request of the script with success, handing out the
given token on generate. -/
def sampleNet (token : String) : Net := fun sent _ =>
  match sent.length with
  | 0 => .resolved (.obj [("token", .str token), ("tokenId", .str "t1"),
                          ("expiresAt", .str "2025-01-01T01:00:00Z")])
  | 1 => .resolved (.arr [sampleView "active"])
  | 2 => .resolved (.obj [("tokenId", .str "t1"), ("expiresAt", .str "2025-01-01T01:30:00Z")])
  | 3 => .resolved (.arr [sampleView "active"])
  | _ => .resolved (.obj [("tokenId", .str "t1"), ("status", .str "revoked")])

/-- The five requests of a complete run, in the order `main` sends them. -/
def plannedRequests (api : String) (token : String) (tokenId : JsVal) : List Request :=
  [generateRequest api, listRequest api token, extendRequest api token tokenId,
   listRequest api token, revokeRequest api token tokenId]

/-- The `Authorization` header of a request, if it has one. -/
def Request.authorization (r : Request) : Option String :=
  (r.headers.find? (fun h => h.1 = "Authorization")).map (fun h => h.2)

/-- Paths of the operations that need a bearer credential. -/
def protectedPaths : List String :=
  ["/jwt/custom/list/me", "/jwt/custom/extend", "/jwt/custom/revoke"]

/-- A request to a protected operation. -/
def isProtected (api : String) (r : Request) : Prop :=
  ∃ path ∈ protectedPaths, r.url = api ++ path

/-- Every request so far answered with success: each request of the list, sent after
`sent` and its predecessors, resolves. -/
def allResolved (net : Net) : List Request → List Request → Prop
  | _, [] => True
  | sent, r :: rest => (∃ data, net sent r = .resolved data) ∧ allResolved net (sent ++ [r]) rest

/-- What a stretch of the run looks like, given the requests `sent` before it and the
requests `planned` for it: either it completes (all planned requests sent and
resolved, summary printed, no exit), or it stops with exit code 1 after a prefix of the
planned requests of which all but possibly the last were resolved. -/
def Shape (net : Net) (sent planned : List Request) (t : List Event) : Prop :=
  (requests t = planned ∧ allResolved net sent planned ∧ exitCode t = none
      ∧ summaryPrinted t = true) ∨
  (∃ done last, (done ++ last) <+: planned ∧ last.length ≤ 1 ∧ requests t = done ++ last
      ∧ allResolved net sent done ∧ exitCode t = some 1 ∧ summaryPrinted t = false)

/-- A run that calls `process.exit` does so at the end of the `catch` block, and the
`catch` block is the end of the run: nothing comes after the error report and the exit. -/
def EndsInCatch (api : String) (t : List Event) : Prop :=
  exitCode t = none ∨ ∃ before error, t = before ++ catchBlock api error ∧ exitCode before = none

/-- The request body of the example scenario as the specification words it:
`Generate(name="example-token", claims={sub:"user123", role:"user"},
expirationInMinutes=60)`. -/
def scenarioGenerateBody : JsVal :=
  .obj [("JWTName", .str "example-token"),
        ("content", .obj [("sub", .str "user123"), ("role", .str "user")]),
        ("expirationInMinutes", .num 60)]

/-- Paths of the example scenario in the order the specification words it: Generate,
ListMine, Extend, Revoke, then ListMine again. -/
def scenarioOrder (api : String) : List String :=
  [api ++ "/jwt/custom/generate", api ++ "/jwt/custom/list/me", api ++ "/jwt/custom/extend",
   api ++ "/jwt/custom/revoke", api ++ "/jwt/custom/list/me"]

/-- Whether `jwt.decode` hands step 2 an object to read `header` and `payload` from. -/
def passesStep2 (lib : Builtins) (token : String) : Prop :=
  ∃ header payload signature,
    jwtDecode lib token
      = .ok (.obj [("header", header), ("payload", payload), ("signature", .str signature)])

/-- What is observed of a stretch of a run: the requests sent, the exit code, and
whether the success summary was printed. -/
def observe (t : List Event) : List Request × Option Nat × Bool :=
  (requests t, exitCode t, summaryPrinted t)

/-- A request that resolves with data for which a condition holds. -/
def Answered (net : Net) (sent : List Request) (r : Request) (handled : JsVal → Prop) : Prop :=
  ∃ data, net sent r = .resolved data ∧ handled data

/-- Step 1 completes with this `token` and `tokenId`: the generate request resolves,
`data.token` is a string (line 70 calls `substring` on it), `data.tokenId` and
`data.expiresAt` can be read, and lines 68 and 69 can print them. -/
def GeneratedBy (net : Net) (api : String) (token : String) (tokenId : JsVal) : Prop :=
  ∃ data expiresAt, net [] (generateRequest api) = .resolved data
    ∧ getProp data "token" = .ok (.str token)
    ∧ getProp data "tokenId" = .ok tokenId
    ∧ getProp data "expiresAt" = .ok expiresAt
    ∧ toStringThrows tokenId = false ∧ toStringThrows expiresAt = false

/-- Lines 94 to 98 complete on this list response: `data.length` can be read and
printed and compared with 0, and when it is greater, `data[0]` can be read and its
`jwtName` and `status` can be read and printed. -/
def listHandled (lib : Builtins) (data : JsVal) : Prop :=
  ∃ n, getProp data "length" = .ok n ∧ toStringThrows n = false
    ∧ (jsGtZero lib n = .ok false
      ∨ (jsGtZero lib n = .ok true
        ∧ ∃ firstToken jwtName status, getIndex0 data = .ok firstToken
          ∧ getProp firstToken "jwtName" = .ok jwtName ∧ toStringThrows jwtName = false
          ∧ getProp firstToken "status" = .ok status ∧ toStringThrows status = false))

/-- Line 117 completes on this extend response: `data.expiresAt` can be read and
printed. -/
def extendHandled (data : JsVal) : Prop :=
  ∃ expiresAt, getProp data "expiresAt" = .ok expiresAt ∧ toStringThrows expiresAt = false

/-- Line 135 completes on this list response: `data.length` can be read and printed. -/
def authHandled (data : JsVal) : Prop :=
  ∃ n, getProp data "length" = .ok n ∧ toStringThrows n = false

/-- Line 154 completes on this revoke response: `data.status` can be read and
printed. -/
def revokeHandled (data : JsVal) : Prop :=
  ∃ status, getProp data "status" = .ok status ∧ toStringThrows status = false

/-- Step `s` of the script (2 to 6) succeeds, the steps before it having succeeded
with this `token` and `tokenId`: step 2 gets an object from `jwt.decode`; steps 3 to 6
get their request answered with success and read and print the response without a
throw. -/
def StepSucceeds (lib : Builtins) (net : Net) (api : String) (token : String)
    (tokenId : JsVal) : Nat → Prop
  | 2 => passesStep2 lib token
  | 3 => Answered net [generateRequest api] (listRequest api token) (listHandled lib)
  | 4 => Answered net [generateRequest api, listRequest api token]
          (extendRequest api token tokenId) extendHandled
  | 5 => Answered net
          [generateRequest api, listRequest api token, extendRequest api token tokenId]
          (listRequest api token) authHandled
  | 6 => Answered net
          [generateRequest api, listRequest api token, extendRequest api token tokenId,
           listRequest api token]
          (revokeRequest api token tokenId) revokeHandled
  | _ => True

/-- The reading of the claim that step 2 validates signatures: some verification, under
which a signing input has at most one valid signature (as with an HMAC under the
expected key), holds of every token that gets past step 2. -/
def SignatureCheckedAtStep2 (lib : Builtins) : Prop :=
  ∃ verifies : String → String → Bool,
    (∀ signingInput s1 s2, verifies signingInput s1 = true → verifies signingInput s2 = true →
      s1 = s2)
    ∧ ∀ signingInput signature, passesStep2 lib (signingInput ++ "." ++ signature) →
        verifies signingInput signature = true

/-! ## Part II. The lifecycle engine -/

/-- Modelled from the spec: the stored status flag of a TokenRecord (section 3), the
engine's code being absent from the sources. -/
inductive Status where
  | active
  | expired
  | revoked
  deriving DecidableEq, Repr

/-- Modelled from the spec: the error taxonomy of section 7, the engine's code being
absent from the sources. -/
inductive TimError where
  | MalformedTokenError
  | SignatureInvalidError
  | TokenExpiredError
  | TokenRevokedError
  | NotFoundError
  | ForbiddenError
  | InvalidDurationError
  | AlreadyRevokedError
  | AlreadyExpiredError
  | MissingCredentialError
  | ConcurrencyConflictError
  | DuplicateTokenIdError
  deriving DecidableEq, Repr

/-- Modelled from the spec: the TokenRecord of section 3 (the engine's code is absent
from the sources).  Timestamps and durations are counted in minutes; the signature
material of a record is left to the codec. -/
structure TokenRecord where
  tokenId : String
  ownerId : String
  name : String
  claims : List (String × String)
  issuedAt : Int
  expiresAt : Int
  status : Status
  deriving DecidableEq, Repr

/-- Modelled from the spec: the payload a signed token carries (section 6: subject,
custom claims, tokenId, issuedAt, expiresAt); the codec's code is absent from the
sources. -/
structure TokenPayload where
  ownerId : String
  claims : List (String × String)
  tokenId : String
  issuedAt : Int
  expiresAt : Int
  deriving DecidableEq, Repr

/-- Modelled from the spec: the Token Codec's `decode` (section 4.1), a pure function of
the signed token that fails with `MalformedTokenError` or `SignatureInvalidError`; the
codec's code is absent from the sources, so it is a parameter of the engine. -/
abbrev Codec := String → Except TimError TokenPayload

/-- Modelled from the spec: the Token Store (section 4.2), records in insertion order;
the store's code is absent from the sources. -/
abbrev Store := List TokenRecord

/-- Modelled from the spec: `get(tokenId)` of section 4.2, `NotFoundError` if absent
(the store's code is absent from the sources). -/
def Store.get (store : Store) (tokenId : String) : Except TimError TokenRecord :=
  match store with
  | [] => .error .NotFoundError
  | r :: rest => if r.tokenId = tokenId then .ok r else Store.get rest tokenId

/-- Modelled from the spec: `update(tokenId, mutation)` of section 4.2 (read current,
apply mutation, write), one call at a time; the store's code is absent from the
sources. -/
def Store.update (store : Store) (tokenId : String) (mutation : TokenRecord → TokenRecord) :
    Store :=
  match store with
  | [] => []
  | r :: rest =>
    if r.tokenId = tokenId then mutation r :: rest
    else r :: Store.update rest tokenId mutation

/-- Modelled from the spec: `listByOwner(ownerId)` of section 4.2 (the store's code is
absent from the sources). -/
def Store.listByOwner (store : Store) (ownerId : String) : List TokenRecord :=
  store.filter (fun r => r.ownerId = ownerId)

/-- Modelled from the spec: the effective status of the glossary, the stored flag with
time-derived expiry folded in (a record whose `expiresAt` has passed is expired for
every reader, section 3); the engine's code is absent from the sources. -/
def effectiveStatus (now : Int) (r : TokenRecord) : Status :=
  match r.status with
  | .revoked => .revoked
  | .expired => .expired
  | .active => if now ≥ r.expiresAt then .expired else .active

/-- Modelled from the spec: Authorize of section 4.3, whose code is absent from the
sources: decode, load the record by the embedded tokenId, reject a revoked record with
`TokenRevokedError` and an expired one with `TokenExpiredError`; yields ownerId and
tokenId. -/
def authorize (codec : Codec) (store : Store) (now : Int) (presentedToken : String) :
    Except TimError (String × String) :=
  match codec presentedToken with
  | .error e => .error e
  | .ok payload =>
    match store.get payload.tokenId with
    | .error e => .error e
    | .ok r =>
      match effectiveStatus now r with
      | .revoked => .error .TokenRevokedError
      | .expired => .error .TokenExpiredError
      | .active => .ok (r.ownerId, r.tokenId)

/-- Modelled from the spec: the public view of a record in a list response (section
4.3), the engine's code being absent from the sources. -/
structure TokenView where
  tokenId : String
  jwtName : String
  status : Status
  issuedAt : Int
  expiresAt : Int
  deriving DecidableEq, Repr

/-- Modelled from the spec: the projection of a record to its public view, with the
effective status (section 4.3); the engine's code is absent from the sources. -/
def publicView (now : Int) (r : TokenRecord) : TokenView :=
  { tokenId := r.tokenId, jwtName := r.name, status := effectiveStatus now r,
    issuedAt := r.issuedAt, expiresAt := r.expiresAt }

/-- Modelled from the spec: List of section 4.3, whose code is absent from the sources:
all records of the caller, each as its public view. -/
def listTokens (store : Store) (now : Int) (callerOwnerId : String) : List TokenView :=
  (store.listByOwner callerOwnerId).map (publicView now)

/-- Modelled from the spec: Extend of section 4.3, whose code is absent from the
sources: `ForbiddenError` on another owner's record, `AlreadyRevokedError`,
`AlreadyExpiredError`, else `expiresAt = max(expiresAt, now) + extensionInMinutes`;
yields the new store and the new `expiresAt`. -/
def extend (store : Store) (now : Int) (tokenId : String) (extensionInMinutes : Int)
    (callerOwnerId : String) : Except TimError (Store × Int) :=
  match store.get tokenId with
  | .error e => .error e
  | .ok r =>
    if r.ownerId ≠ callerOwnerId then .error .ForbiddenError
    else
      match effectiveStatus now r with
      | .revoked => .error .AlreadyRevokedError
      | .expired => .error .AlreadyExpiredError
      | .active =>
        .ok (store.update tokenId
              (fun c => { c with expiresAt := max c.expiresAt now + extensionInMinutes }),
             max r.expiresAt now + extensionInMinutes)

/-- Modelled from the spec: Revoke of section 4.3, whose code is absent from the
sources: `ForbiddenError` on another owner's record, else the status is set to revoked
whatever it was; yields the new store and the status. -/
def revoke (store : Store) (tokenId : String) (callerOwnerId : String) :
    Except TimError (Store × Status) :=
  match store.get tokenId with
  | .error e => .error e
  | .ok r =>
    if r.ownerId ≠ callerOwnerId then .error .ForbiddenError
    else .ok (store.update tokenId (fun c => { c with status := .revoked }), .revoked)

/-- Modelled from the spec: the Authorization Guard of section 4.4, whose code is
absent from the sources: the token of a `Bearer` header, `MissingCredentialError`
without one, then Authorize. -/
def authorizationGuard (codec : Codec) (store : Store) (now : Int) (headers : List (String × String)) :
    Except TimError (String × String) :=
  match headers.find? (fun h => h.1 = "Authorization") with
  | none => .error .MissingCredentialError
  | some h =>
    if "Bearer ".toList.isPrefixOf h.2.toList then
      authorize codec store now (String.mk (h.2.toList.drop 7))
    else .error .MissingCredentialError

/-- Modelled from the spec: the ListMine operation of section 6, whose code is absent
from the sources: the guard resolves the caller from the bearer token, List answers for
that owner.  The request body is not an input. -/
def listMine (codec : Codec) (store : Store) (now : Int) (headers : List (String × String)) :
    Except TimError (List TokenView) :=
  match authorizationGuard codec store now headers with
  | .error e => .error e
  | .ok (ownerId, _) => .ok (listTokens store now ownerId)

/-- A call of Extend in a sequence: the time of the call, the extension and the caller. -/
structure ExtendCall where
  now : Int
  extensionInMinutes : Int
  callerOwnerId : String
  deriving DecidableEq, Repr

/-- The `expiresAt` values returned by the successful calls of a sequence of Extend
calls on one tokenId, in order; a failed call leaves the store as it was. -/
def extendResults (store : Store) (tokenId : String) : List ExtendCall → List Int
  | [] => []
  | c :: rest =>
    match extend store c.now tokenId c.extensionInMinutes c.callerOwnerId with
    | .ok (store2, expiresAt) => expiresAt :: extendResults store2 tokenId rest
    | .error _ => extendResults store tokenId rest

/-- The stored `expiresAt` of a tokenId, when the record exists. -/
def storedExpiresAt (store : Store) (tokenId : String) : Option Int :=
  match store.get tokenId with
  | .ok r => some r.expiresAt
  | .error _ => none

/-! ### Sample store -/

/-- A record of owner `user123`, issued at minute 0 for 60 minutes. -/
def sampleRecord : TokenRecord :=
  { tokenId := "t1", ownerId := "user123", name := "example-token",
    claims := [("sub", "user123"), ("role", "user")], issuedAt := 0, expiresAt := 60,
    status := .active }

/-- A record of another owner. -/
def otherRecord : TokenRecord :=
  { tokenId := "t2", ownerId := "user456", name := "other-token",
    claims := [("sub", "user456")], issuedAt := 5, expiresAt := 65, status := .active }

/-- A store holding one record for each of two owners. -/
def sampleStore : Store := [sampleRecord, otherRecord]

/-- The payload of the token of `sampleRecord`. -/
def samplePayload : TokenPayload :=
  { ownerId := "user123", claims := [("sub", "user123"), ("role", "user")],
    tokenId := "t1", issuedAt := 0, expiresAt := 60 }

/-- A codec that knows the token `T1` of `sampleRecord` and rejects everything else as
malformed. -/
def sampleCodec : Codec := fun token =>
  if token = "T1" then .ok samplePayload else .error .MalformedTokenError

/-! ## Lemmas on runs -/

@[simp] theorem requests_post (r : Request) (t : List Event) :
    requests (.post r :: t) = r :: requests t := rfl

@[simp] theorem requests_log (l : Line) (t : List Event) :
    requests (.log l :: t) = requests t := rfl

@[simp] theorem exitCode_post (r : Request) (t : List Event) :
    exitCode (.post r :: t) = exitCode t := rfl

@[simp] theorem exitCode_log (l : Line) (t : List Event) :
    exitCode (.log l :: t) = exitCode t := rfl

@[simp] theorem summaryPrinted_post (r : Request) (t : List Event) :
    summaryPrinted (.post r :: t) = summaryPrinted t := rfl

@[simp] theorem summaryPrinted_field (c s : String) (vs : List JsVal) (t : List Event) :
    summaryPrinted (.log (.field c s vs) :: t) = summaryPrinted t := rfl

@[simp] theorem summaryPrinted_step (n : Nat) (s : String) (t : List Event) :
    summaryPrinted (.log (.step n s) :: t) = summaryPrinted t := rfl

theorem summaryPrinted_text (c m : String) (t : List Event)
    (h : m ≠ "✨ Example completed successfully!") :
    summaryPrinted (.log (.text c m) :: t) = summaryPrinted t := by
  simp [summaryPrinted, h]

theorem requests_catchBlock (api : String) (e : Thrown) : requests (catchBlock api e) = [] := by
  cases e with
  | axios f => cases f <;> rfl
  | typeError => rfl
  | syntaxError => rfl

theorem exitCode_catchBlock (api : String) (e : Thrown) :
    exitCode (catchBlock api e) = some 1 := by
  cases e with
  | axios f => cases f <;> rfl
  | typeError => rfl
  | syntaxError => rfl

theorem summaryPrinted_catchBlock (api : String) (e : Thrown) :
    summaryPrinted (catchBlock api e) = false := by
  cases e with
  | axios f => cases f <;> rfl
  | typeError => rfl
  | syntaxError => rfl

theorem shape_catchBlock (net : Net) (sent planned : List Request) (api : String) (e : Thrown) :
    Shape net sent planned (catchBlock api e) := by
  refine Or.inr ⟨[], [], ?_, ?_, ?_, ?_, ?_, ?_⟩
  · exact List.nil_prefix
  · simp
  · simpa using requests_catchBlock api e
  · trivial
  · exact exitCode_catchBlock api e
  · exact summaryPrinted_catchBlock api e

theorem shape_field (net : Net) (sent planned : List Request) (c s : String)
    (vs : List JsVal) (t : List Event) (h : Shape net sent planned t) :
    Shape net sent planned (.log (.field c s vs) :: t) := by
  simpa [Shape] using h

theorem shape_step (net : Net) (sent planned : List Request) (n : Nat) (s : String)
    (t : List Event) (h : Shape net sent planned t) :
    Shape net sent planned (.log (.step n s) :: t) := by
  simpa [Shape] using h

theorem shape_text (net : Net) (sent planned : List Request) (c m : String)
    (t : List Event) (hm : m ≠ "✨ Example completed successfully!")
    (h : Shape net sent planned t) :
    Shape net sent planned (.log (.text c m) :: t) := by
  simpa [Shape, summaryPrinted_text c m t hm] using h

theorem shape_rejected (net : Net) (sent planned : List Request) (r : Request)
    (api : String) (e : Thrown) :
    Shape net sent (r :: planned) (.post r :: catchBlock api e) := by
  refine Or.inr ⟨[], [r], ?_, ?_, ?_, ?_, ?_, ?_⟩
  · simp
  · simp
  · simp [requests_catchBlock]
  · trivial
  · simp [exitCode_catchBlock]
  · simp [summaryPrinted_catchBlock]

theorem shape_resolved (net : Net) (sent planned : List Request) (r : Request)
    (data : JsVal) (t : List Event) (hr : net sent r = .resolved data)
    (h : Shape net (sent ++ [r]) planned t) :
    Shape net sent (r :: planned) (.post r :: t) := by
  rcases h with ⟨h1, h2, h3, h4⟩ | ⟨done, last, h1, h2, h3, h4, h5, h6⟩
  · exact Or.inl ⟨by simp [h1], ⟨⟨data, hr⟩, h2⟩, by simpa using h3, by simpa using h4⟩
  · refine Or.inr ⟨r :: done, last, ?_, h2, ?_, ⟨⟨data, hr⟩, h4⟩, by simpa using h5,
      by simpa using h6⟩
    · simpa [List.cons_prefix_cons] using h1
    · simp [h3]

theorem shape_logValue (net : Net) (sent planned : List Request) (api label : String)
    (value : JsVal) (rest : List Event) (h : Shape net sent planned rest) :
    Shape net sent planned (logValue api label value rest) := by
  unfold logValue
  split
  · exact shape_catchBlock _ _ _ _ _
  · exact shape_field _ _ _ _ _ _ _ h

theorem shape_afterRevoke (net : Net) (sent : List Request) (api : String) (data : JsVal) :
    Shape net sent [] (afterRevoke api data) := by
  unfold afterRevoke
  refine shape_text _ _ _ _ _ _ (by decide) ?_
  split
  · exact shape_catchBlock _ _ _ _ _
  · refine shape_logValue _ _ _ _ _ _ _ (Or.inl ⟨?_, trivial, ?_, ?_⟩) <;> rfl

theorem shape_step6 (net : Net) (sent : List Request) (api token : String) (tokenId : JsVal) :
    Shape net sent [revokeRequest api token tokenId] (step6 api net token tokenId sent) := by
  unfold step6
  refine shape_step _ _ _ _ _ _ ?_
  split
  · exact shape_rejected _ _ _ _ _ _
  · next data h => exact shape_resolved _ _ _ _ data _ h (shape_afterRevoke _ _ _ _)

theorem shape_step5 (net : Net) (sent : List Request) (api token : String) (tokenId : JsVal) :
    Shape net sent [listRequest api token, revokeRequest api token tokenId]
      (step5 api net token tokenId sent) := by
  unfold step5
  refine shape_step _ _ _ _ _ _ ?_
  split
  · exact shape_rejected _ _ _ _ _ _
  · next data h =>
    refine shape_resolved _ _ _ _ data _ h ?_
    refine shape_text _ _ _ _ _ _ (by decide) ?_
    split
    · exact shape_catchBlock _ _ _ _ _
    · exact shape_logValue _ _ _ _ _ _ _ (shape_step6 _ _ _ _ _)

theorem shape_step4 (net : Net) (sent : List Request) (api token : String) (tokenId : JsVal) :
    Shape net sent
      [extendRequest api token tokenId, listRequest api token, revokeRequest api token tokenId]
      (step4 api net token tokenId sent) := by
  unfold step4
  refine shape_step _ _ _ _ _ _ ?_
  split
  · exact shape_rejected _ _ _ _ _ _
  · next data h =>
    refine shape_resolved _ _ _ _ data _ h ?_
    split
    · exact shape_catchBlock _ _ _ _ _
    · exact shape_logValue _ _ _ _ _ _ _
        (shape_text _ _ _ "   Extended by: 30 minutes" _ _ (by decide) (shape_step5 _ _ _ _ _))

theorem shape_latestToken (net : Net) (sent planned : List Request) (api : String)
    (data : JsVal) (rest : List Event) (h : Shape net sent planned rest) :
    Shape net sent planned (latestToken api data rest) := by
  unfold latestToken
  split
  · exact shape_catchBlock _ _ _ _ _
  · split
    · exact shape_catchBlock _ _ _ _ _
    · split
      · exact shape_catchBlock _ _ _ _ _
      · split
        · exact shape_catchBlock _ _ _ _ _
        · split
          · exact shape_catchBlock _ _ _ _ _
          · exact shape_field _ _ _ _ _ _ _ h

theorem shape_afterList (lib : Builtins) (net : Net) (sent : List Request)
    (api token : String) (tokenId data : JsVal) :
    Shape net sent
      [extendRequest api token tokenId, listRequest api token, revokeRequest api token tokenId]
      (afterList lib api net token tokenId sent data) := by
  unfold afterList
  split
  · exact shape_catchBlock _ _ _ _ _
  · refine shape_logValue _ _ _ _ _ _ _ ?_
    split
    · exact shape_catchBlock _ _ _ _ _
    · exact shape_latestToken _ _ _ _ _ _ (shape_step4 _ _ _ _ _)
    · exact shape_step4 _ _ _ _ _

theorem shape_step3 (lib : Builtins) (net : Net) (sent : List Request)
    (api token : String) (tokenId : JsVal) :
    Shape net sent
      [listRequest api token, extendRequest api token tokenId, listRequest api token,
        revokeRequest api token tokenId]
      (step3 lib api net token tokenId sent) := by
  unfold step3
  refine shape_step _ _ _ _ _ _ ?_
  split
  · exact shape_rejected _ _ _ _ _ _
  · next data h => exact shape_resolved _ _ _ _ data _ h (shape_afterList _ _ _ _ _ _ _)

theorem shape_step2 (lib : Builtins) (net : Net) (sent : List Request)
    (api token : String) (tokenId : JsVal) :
    Shape net sent
      [listRequest api token, extendRequest api token tokenId, listRequest api token,
        revokeRequest api token tokenId]
      (step2 lib api net token tokenId sent) := by
  unfold step2
  refine shape_step _ _ _ _ _ _ ?_
  split
  · exact shape_catchBlock _ _ _ _ _
  · split
    · exact shape_catchBlock _ _ _ _ _
    · refine shape_field _ _ _ _ _ _ _ ?_
      split
      · exact shape_catchBlock _ _ _ _ _
      · exact shape_field _ _ _ _ _ _ _ (shape_step3 _ _ _ _ _ _)

theorem rule40_ne_summary : rule40 ≠ "✨ Example completed successfully!" := by decide

theorem generatedBy_data (net : Net) (api token : String) (tokenId data : JsVal)
    (hnet : net [] (generateRequest api) = .resolved data)
    (h : GeneratedBy net api token tokenId) :
    getProp data "token" = .ok (.str token) ∧ getProp data "tokenId" = .ok tokenId
    ∧ ∃ expiresAt, getProp data "expiresAt" = .ok expiresAt
      ∧ toStringThrows tokenId = false ∧ toStringThrows expiresAt = false := by
  obtain ⟨d, e, hd, h1, h2, h3, h4, h5⟩ := h
  rw [hnet] at hd
  cases hd
  exact ⟨h1, h2, e, h3, h4, h5⟩

/-- A run of `main`: either step 1 completes with a token and a tokenId, and the run
has the shape above for the five planned requests; or the run sent the generate request
only and exited with code 1. -/
theorem main_shape (lib : Builtins) (envVar : Option String) (net : Net) :
    (∃ data token tokenId,
        net [] (generateRequest (TIM_API_URL envVar)) = .resolved data
        ∧ getProp data "token" = .ok (.str token)
        ∧ getProp data "tokenId" = .ok tokenId
        ∧ Shape net [] (plannedRequests (TIM_API_URL envVar) token tokenId)
            (main lib envVar net)
        ∧ GeneratedBy net (TIM_API_URL envVar) token tokenId
        ∧ observe (main lib envVar net)
            = (generateRequest (TIM_API_URL envVar)
                :: (observe (step2 lib (TIM_API_URL envVar) net token tokenId
                      [generateRequest (TIM_API_URL envVar)])).1,
               (observe (step2 lib (TIM_API_URL envVar) net token tokenId
                      [generateRequest (TIM_API_URL envVar)])).2))
    ∨ ((¬ ∃ token tokenId, GeneratedBy net (TIM_API_URL envVar) token tokenId)
        ∧ requests (main lib envVar net) = [generateRequest (TIM_API_URL envVar)]
        ∧ exitCode (main lib envVar net) = some 1
        ∧ summaryPrinted (main lib envVar net) = false) := by
  unfold main
  split
  · next f h =>
    refine Or.inr ⟨?_, ?_, ?_, ?_⟩
    · rintro ⟨token, tokenId, d, e, hd, _⟩
      rw [h] at hd
      cases hd
    · simp [log, step, requests_catchBlock]
    · simp [log, step, exitCode_catchBlock]
    · simp [log, step, summaryPrinted_text, summaryPrinted_catchBlock, rule40_ne_summary]
  · next data h =>
    unfold afterGenerate
    split
    · next e he =>
      refine Or.inr ⟨?_, ?_, ?_, ?_⟩
      · rintro ⟨token, tokenId, hg⟩
        have hd := (generatedBy_data _ _ _ _ _ h hg).1
        rw [he] at hd
        cases hd
      · simp [log, step, requests_catchBlock]
      · simp [log, step, exitCode_catchBlock]
      · simp [log, step, summaryPrinted_text, summaryPrinted_catchBlock, rule40_ne_summary]
    · next token htoken =>
      split
      · next e he =>
        refine Or.inr ⟨?_, ?_, ?_, ?_⟩
        · rintro ⟨tok, tokenId, hg⟩
          have hd := (generatedBy_data _ _ _ _ _ h hg).2.1
          rw [he] at hd
          cases hd
        · simp [log, step, requests_catchBlock]
        · simp [log, step, exitCode_catchBlock]
        · simp [log, step, summaryPrinted_text, summaryPrinted_catchBlock, rule40_ne_summary]
      · next tokenId hid =>
        split
        · next e he =>
          refine Or.inr ⟨?_, ?_, ?_, ?_⟩
          · rintro ⟨tok, tid, hg⟩
            obtain ⟨_, _, e2, he2, _, _⟩ := generatedBy_data _ _ _ _ _ h hg
            rw [he] at he2
            cases he2
          · simp [log, step, requests_catchBlock]
          · simp [log, step, exitCode_catchBlock]
          · simp [log, step, summaryPrinted_text, summaryPrinted_catchBlock, rule40_ne_summary]
        · next expiresAt hexp =>
          unfold logValue
          by_cases hthrow1 : toStringThrows tokenId = true
          · rw [if_pos hthrow1]
            refine Or.inr ⟨?_, ?_, ?_, ?_⟩
            · rintro ⟨tok, tid, hg⟩
              obtain ⟨_, h2, e2, _, h4, _⟩ := generatedBy_data _ _ _ _ _ h hg
              rw [hid] at h2
              cases h2
              rw [hthrow1] at h4
              cases h4
            · simp [log, step, requests_catchBlock]
            · simp [log, step, exitCode_catchBlock]
            · simp [log, step, summaryPrinted_text, summaryPrinted_catchBlock,
                rule40_ne_summary]
          · rw [if_neg hthrow1]
            by_cases hthrow2 : toStringThrows expiresAt = true
            · rw [if_pos hthrow2]
              refine Or.inr ⟨?_, ?_, ?_, ?_⟩
              · rintro ⟨tok, tid, hg⟩
                obtain ⟨_, _, e2, he2, _, h5⟩ := generatedBy_data _ _ _ _ _ h hg
                rw [hexp] at he2
                cases he2
                rw [hthrow2] at h5
                cases h5
              · simp [log, step, logField, requests_catchBlock]
              · simp [log, step, logField, exitCode_catchBlock]
              · simp [log, step, logField, summaryPrinted_text, summaryPrinted_catchBlock,
                  rule40_ne_summary]
            · rw [if_neg hthrow2]
              split
              · next tokenText =>
                have hgen : GeneratedBy net (TIM_API_URL envVar) tokenText tokenId :=
                  ⟨data, expiresAt, h, htoken, hid, hexp, by simpa using hthrow1,
                    by simpa using hthrow2⟩
                refine Or.inl ⟨data, tokenText, tokenId, h, htoken, hid, ?_, hgen, ?_⟩
                · refine shape_text _ _ _ _ _ _ (by decide) ?_
                  refine shape_text _ _ _ _ _ _ rule40_ne_summary ?_
                  refine shape_step _ _ _ _ _ _ ?_
                  refine shape_resolved _ _ _ _ data _ h ?_
                  exact shape_field _ _ _ _ _ _ _ (shape_field _ _ _ _ _ _ _
                    (shape_field _ _ _ _ _ _ _ (shape_step2 _ _ _ _ _ _)))
                · simp [observe, log, step, logField, summaryPrinted_text, rule40_ne_summary]
              · next hns =>
                refine Or.inr ⟨?_, ?_, ?_, ?_⟩
                · rintro ⟨tok, tid, hg⟩
                  have hd := (generatedBy_data _ _ _ _ _ h hg).1
                  rw [htoken] at hd
                  cases hd
                  exact hns tok rfl
                · simp [log, step, logField, requests_catchBlock]
                · simp [log, step, logField, exitCode_catchBlock]
                · simp [log, step, logField, summaryPrinted_text, summaryPrinted_catchBlock,
                    rule40_ne_summary]

theorem string_append_left_cancel (a b c : String) (h : a ++ b = a ++ c) : b = c := by
  have hd := congrArg String.data h
  simp only [String.data_append, List.append_cancel_left_eq] at hd
  exact String.ext hd

theorem shape_mem (net : Net) (sent planned : List Request) (t : List Event)
    (h : Shape net sent planned t) (r : Request) (hr : r ∈ requests t) : r ∈ planned := by
  rcases h with ⟨h1, _⟩ | ⟨done, last, h1, _, h3, _⟩
  · rwa [h1] at hr
  · rw [h3] at hr
    exact h1.subset hr

theorem shape_prefix (net : Net) (sent planned : List Request) (t : List Event)
    (h : Shape net sent planned t) : requests t <+: planned := by
  rcases h with ⟨h1, _⟩ | ⟨done, last, h1, _, h3, _⟩
  · rw [h1]
  · rwa [h3]

theorem allResolved_split (net : Net) (pre : List Request) :
    ∀ (sent : List Request) (r : Request) (post : List Request),
      allResolved net sent (pre ++ r :: post) → ∃ data, net (sent ++ pre) r = .resolved data := by
  induction pre with
  | nil =>
    intro sent r post h
    simpa using h.1
  | cons x xs ih =>
    intro sent r post h
    have h2 := ih (sent ++ [x]) r post h.2
    simpa using h2

theorem shape_rejected_last (net : Net) (planned : List Request) (t : List Event)
    (h : Shape net [] planned t) (pre post : List Request) (r : Request)
    (hsplit : requests t = pre ++ r :: post) (f : AxiosFailure) (hrej : net pre r = .rejected f) :
    post = [] ∧ exitCode t = some 1 := by
  rcases h with ⟨h1, h2, _, _⟩ | ⟨done, last, _, h2, h3, h4, h5, _⟩
  · rw [h1] at hsplit
    rw [hsplit] at h2
    obtain ⟨data, hd⟩ := allResolved_split net pre [] r post h2
    simp [hrej] at hd
  · refine ⟨?_, h5⟩
    rw [h3] at hsplit
    rcases List.append_eq_append_iff.mp hsplit with ⟨a, ha, hl⟩ | ⟨c, hc, hl⟩
    · have hlen := congrArg List.length hl
      simp at hlen
      have : post.length = 0 := by omega
      exact List.length_eq_zero.mp this
    · cases c with
      | nil =>
        simp at hl
        have hlen := congrArg List.length hl
        simp at hlen
        have : post.length = 0 := by omega
        exact List.length_eq_zero.mp this
      | cons x c2 =>
        simp at hl
        obtain ⟨hx, _⟩ := hl
        subst hx
        rw [hc] at h4
        obtain ⟨data, hd⟩ := allResolved_split net pre [] r c2 h4
        simp [hrej] at hd

theorem authorization_planned (api token : String) (tokenId : JsVal) (r : Request)
    (hr : r ∈ plannedRequests api token tokenId) :
    (r = generateRequest api ∧ r.authorization = none ∧ ¬ isProtected api r)
    ∨ (r.authorization = some ("Bearer " ++ token) ∧ isProtected api r
        ∧ r.url ≠ api ++ "/jwt/custom/generate") := by
  simp only [plannedRequests, List.mem_cons, List.mem_singleton, List.not_mem_nil, or_false] at hr
  rcases hr with h | h | h | h | h
  · left
    subst h
    refine ⟨rfl, rfl, ?_⟩
    rintro ⟨path, hpath, hurl⟩
    have hp := string_append_left_cancel _ _ _ hurl
    subst hp
    revert hpath
    decide
  all_goals
    right
    subst h
    refine ⟨rfl, ?_, ?_⟩
    · first
        | exact ⟨"/jwt/custom/list/me", by decide, rfl⟩
        | exact ⟨"/jwt/custom/extend", by decide, rfl⟩
        | exact ⟨"/jwt/custom/revoke", by decide, rfl⟩
    · intro hurl
      have hp := string_append_left_cancel _ _ _ hurl
      revert hp
      decide

theorem requests_append (a b : List Event) : requests (a ++ b) = requests a ++ requests b := by
  induction a with
  | nil => rfl
  | cons e rest ih => cases e <;> simp [requests, ih]

theorem exitCode_append (a b : List Event) (h : exitCode a = none) :
    exitCode (a ++ b) = exitCode b := by
  induction a with
  | nil => rfl
  | cons e rest ih =>
    cases e with
    | exit code => simp [exitCode] at h
    | post r => simpa [exitCode] using ih (by simpa [exitCode] using h)
    | log l => simpa [exitCode] using ih (by simpa [exitCode] using h)

theorem jwtDecode_ok (lib : Builtins) (token : String) (v : JsVal)
    (h : jwtDecode lib token = .ok v) : v = .null ∨ passesStep2 lib token := by
  unfold passesStep2
  unfold jwtDecode at h ⊢
  split at h
  · cases h
  · left
    cases h
    rfl
  · right
    exact ⟨_, _, _, rfl⟩

theorem step2_stops (lib : Builtins) (net : Net) (sent : List Request) (api token : String)
    (tokenId : JsVal) (h : ¬ passesStep2 lib token) :
    requests (step2 lib api net token tokenId sent) = []
    ∧ exitCode (step2 lib api net token tokenId sent) = some 1 := by
  unfold step2
  split
  · simp [step, requests_catchBlock, exitCode_catchBlock]
  · next decoded hdec =>
    rcases jwtDecode_ok lib token decoded hdec with hnull | hpass
    · subst hnull
      simp [step, getProp, requests_catchBlock, exitCode_catchBlock]
    · exact absurd hpass h

theorem step2_continues (lib : Builtins) (net : Net) (sent : List Request) (api token : String)
    (tokenId : JsVal) (h : passesStep2 lib token) :
    ∃ rest, requests (step2 lib api net token tokenId sent) = listRequest api token :: rest := by
  obtain ⟨header, payload, signature, hdec⟩ := h
  unfold step2
  rw [hdec]
  exact ⟨_, rfl⟩

theorem splitDots_ne_nil (cs : List Char) : splitDots cs ≠ [] := by
  induction cs with
  | nil => simp [splitDots]
  | cons c rest ih =>
    unfold splitDots
    split
    · simp
    · split
      · simp
      · simp

theorem base64Url_ne_dot (c : Char) (h : isBase64UrlChar c = true) : c ≠ '.' := by
  intro hc
  subst hc
  revert h
  decide

theorem splitDots_no_dot (cs : List Char) (h : cs.all isBase64UrlChar = true) :
    splitDots cs = [cs] := by
  induction cs with
  | nil => rfl
  | cons c rest ih =>
    simp only [List.all_cons, Bool.and_eq_true] at h
    unfold splitDots
    rw [if_neg (base64Url_ne_dot c h.1), ih h.2]

theorem splitDots_append_dot (x y : List Char) (hy : y.all isBase64UrlChar = true) :
    splitDots (x ++ '.' :: y) = splitDots x ++ [y] := by
  induction x with
  | nil => simp [splitDots, splitDots_no_dot y hy]
  | cons c rest ih =>
    by_cases hc : c = '.'
    · simp [splitDots, hc, ih]
    · have hne := splitDots_ne_nil rest
      cases hs : splitDots rest with
      | nil => exact absurd hs hne
      | cons seg segs =>
        simp [splitDots, hc, ih, hs]

theorem jwsSegments_append (x sig : String) (h : sig.toList.all isBase64UrlChar = true) :
    jwsSegments (x ++ "." ++ sig)
      = match splitDots x.toList with
        | [hd, p] =>
          if !hd.isEmpty && hd.all isBase64UrlChar && !p.isEmpty && p.all isBase64UrlChar
          then some (String.mk hd, String.mk p, sig) else none
        | _ => none := by
  unfold jwsSegments
  have hl : (x ++ "." ++ sig).toList = x.toList ++ '.' :: sig.toList := by
    simp [String.toList]
  rw [hl, splitDots_append_dot _ _ h]
  have hs : sig.toList.all isBase64UrlChar = true := h
  rcases splitDots x.toList with _ | ⟨hd, _ | ⟨p, _ | ⟨q, rest⟩⟩⟩
  · simp
  · simp
  · simp only [List.cons_append, List.nil_append, hs, Bool.and_true]
    rfl
  · simp

theorem jwsDecode_signature (lib : Builtins) (x sig1 sig2 : String)
    (h1 : sig1.toList.all isBase64UrlChar = true) (h2 : sig2.toList.all isBase64UrlChar = true) :
    jwsDecode lib (x ++ "." ++ sig2)
      = match jwsDecode lib (x ++ "." ++ sig1) with
        | .error e => .error e
        | .ok none => .ok none
        | .ok (some (header, payload, _)) => .ok (some (header, payload, sig2)) := by
  unfold jwsDecode
  rw [jwsSegments_append _ _ h1, jwsSegments_append _ _ h2]
  generalize splitDots x.toList = sd
  rcases sd with _ | ⟨hd, _ | ⟨p, _ | ⟨q, rest⟩⟩⟩
  · rfl
  · rfl
  · by_cases hc : (!hd.isEmpty && hd.all isBase64UrlChar && !p.isEmpty && p.all isBase64UrlChar) = true
    · simp only [hc, if_true]
      cases lib.jsonParse (lib.base64Binary (String.mk hd)) with
      | none => rfl
      | some header =>
        by_cases ht : (!truthy header) = true
        · simp only [ht, if_true]
        · simp only [ht, Bool.false_eq_true, if_false]
          split
          · cases lib.jsonParse (lib.base64Utf8 (String.mk p)) <;> rfl
          · rfl
    · simp only [hc]
      rfl
  · rfl

theorem passesStep2_signature (lib : Builtins) (x sig1 sig2 : String)
    (h1 : sig1.toList.all isBase64UrlChar = true) (h2 : sig2.toList.all isBase64UrlChar = true)
    (hp : passesStep2 lib (x ++ "." ++ sig1)) : passesStep2 lib (x ++ "." ++ sig2) := by
  unfold passesStep2 jwtDecode at *
  rw [jwsDecode_signature lib x sig1 sig2 h1 h2]
  obtain ⟨header, payload, signature, hp⟩ := hp
  rcases hd : jwsDecode lib (x ++ "." ++ sig1) with e | _ | ⟨h, p, s⟩
  · rw [hd] at hp
    cases hp
  · rw [hd] at hp
    cases hp
  · exact ⟨_, _, _, rfl⟩

theorem ends_catchBlock (api : String) (e : Thrown) : EndsInCatch api (catchBlock api e) :=
  Or.inr ⟨[], e, rfl, rfl⟩

theorem ends_log (api : String) (l : Line) (t : List Event) (h : EndsInCatch api t) :
    EndsInCatch api (.log l :: t) := by
  rcases h with h | ⟨before, e, ht, hb⟩
  · exact Or.inl h
  · exact Or.inr ⟨.log l :: before, e, by rw [ht]; rfl, hb⟩

theorem ends_post (api : String) (r : Request) (t : List Event) (h : EndsInCatch api t) :
    EndsInCatch api (.post r :: t) := by
  rcases h with h | ⟨before, e, ht, hb⟩
  · exact Or.inl h
  · exact Or.inr ⟨.post r :: before, e, by rw [ht]; rfl, hb⟩

theorem ends_logValue (api label : String) (value : JsVal) (rest : List Event)
    (h : EndsInCatch api rest) : EndsInCatch api (logValue api label value rest) := by
  unfold logValue
  split
  · exact ends_catchBlock _ _
  · exact ends_log _ _ _ h

theorem ends_step6 (net : Net) (sent : List Request) (api token : String) (tokenId : JsVal) :
    EndsInCatch api (step6 api net token tokenId sent) := by
  unfold step6
  refine ends_log _ _ _ (ends_post _ _ _ ?_)
  split
  · exact ends_catchBlock _ _
  · unfold afterRevoke
    refine ends_log _ _ _ ?_
    split
    · exact ends_catchBlock _ _
    · exact ends_logValue _ _ _ _ (Or.inl rfl)

theorem ends_step5 (net : Net) (sent : List Request) (api token : String) (tokenId : JsVal) :
    EndsInCatch api (step5 api net token tokenId sent) := by
  unfold step5
  refine ends_log _ _ _ (ends_post _ _ _ ?_)
  split
  · exact ends_catchBlock _ _
  · refine ends_log _ _ _ ?_
    split
    · exact ends_catchBlock _ _
    · exact ends_logValue _ _ _ _ (ends_step6 _ _ _ _ _)

theorem ends_step4 (net : Net) (sent : List Request) (api token : String) (tokenId : JsVal) :
    EndsInCatch api (step4 api net token tokenId sent) := by
  unfold step4
  refine ends_log _ _ _ (ends_post _ _ _ ?_)
  split
  · exact ends_catchBlock _ _
  · split
    · exact ends_catchBlock _ _
    · exact ends_logValue _ _ _ _ (ends_log _ _ _ (ends_step5 _ _ _ _ _))

theorem ends_latestToken (api : String) (data : JsVal) (rest : List Event)
    (h : EndsInCatch api rest) : EndsInCatch api (latestToken api data rest) := by
  unfold latestToken
  split
  · exact ends_catchBlock _ _
  · split
    · exact ends_catchBlock _ _
    · split
      · exact ends_catchBlock _ _
      · split
        · exact ends_catchBlock _ _
        · split
          · exact ends_catchBlock _ _
          · exact ends_log _ _ _ h

theorem ends_step3 (lib : Builtins) (net : Net) (sent : List Request) (api token : String)
    (tokenId : JsVal) : EndsInCatch api (step3 lib api net token tokenId sent) := by
  unfold step3
  refine ends_log _ _ _ (ends_post _ _ _ ?_)
  split
  · exact ends_catchBlock _ _
  · unfold afterList
    split
    · exact ends_catchBlock _ _
    · refine ends_logValue _ _ _ _ ?_
      split
      · exact ends_catchBlock _ _
      · exact ends_latestToken _ _ _ (ends_step4 _ _ _ _ _)
      · exact ends_step4 _ _ _ _ _

theorem ends_step2 (lib : Builtins) (net : Net) (sent : List Request) (api token : String)
    (tokenId : JsVal) : EndsInCatch api (step2 lib api net token tokenId sent) := by
  unfold step2
  refine ends_log _ _ _ ?_
  split
  · exact ends_catchBlock _ _
  · split
    · exact ends_catchBlock _ _
    · refine ends_log _ _ _ ?_
      split
      · exact ends_catchBlock _ _
      · exact ends_log _ _ _ (ends_step3 _ _ _ _ _ _)

theorem ends_main (lib : Builtins) (envVar : Option String) (net : Net) :
    EndsInCatch (TIM_API_URL envVar) (main lib envVar net) := by
  unfold main
  refine ends_log _ _ _ (ends_log _ _ _ (ends_log _ _ _ (ends_post _ _ _ ?_)))
  split
  · exact ends_catchBlock _ _
  · unfold afterGenerate
    split
    · exact ends_catchBlock _ _
    · split
      · exact ends_catchBlock _ _
      · split
        · exact ends_catchBlock _ _
        · refine ends_logValue _ _ _ _ (ends_logValue _ _ _ _ ?_)
          split
          · exact ends_log _ _ _ (ends_step2 _ _ _ _ _ _)
          · exact ends_catchBlock _ _

theorem not_passesStep2_of_shape (lib : Builtins) (token : String)
    (h : jwsSegments token = none) : ¬ passesStep2 lib token := by
  rintro ⟨header, payload, signature, hdec⟩
  simp [jwtDecode, jwsDecode, h] at hdec

/-! ## Lemmas on what is observed of each step -/

theorem observe_catchBlock (api : String) (e : Thrown) :
    observe (catchBlock api e) = ([], some 1, false) := by
  simp [observe, requests_catchBlock, exitCode_catchBlock, summaryPrinted_catchBlock]

theorem observe_field (c s : String) (vs : List JsVal) (t : List Event) :
    observe (.log (.field c s vs) :: t) = observe t := rfl

theorem observe_step (n : Nat) (s : String) (t : List Event) :
    observe (.log (.step n s) :: t) = observe t := rfl

theorem observe_text (c m : String) (t : List Event)
    (h : m ≠ "✨ Example completed successfully!") :
    observe (.log (.text c m) :: t) = observe t := by
  simp [observe, summaryPrinted_text c m t h]

theorem observe_post (r : Request) (t : List Event) :
    observe (.post r :: t) = (r :: (observe t).1, (observe t).2) := rfl

theorem observe_logValue_ok (api label : String) (value : JsVal) (rest : List Event)
    (h : toStringThrows value = false) :
    observe (logValue api label value rest) = observe rest := by
  simp [logValue, h, logField, observe_field]

theorem observe_logValue_throws (api label : String) (value : JsVal) (rest : List Event)
    (h : toStringThrows value = true) :
    observe (logValue api label value rest) = ([], some 1, false) := by
  simp [logValue, h, observe_catchBlock]

theorem observe_summary : observe summary = ([], none, true) := by
  simp [observe, summary, log, requests, exitCode, summaryPrinted]

theorem observe_afterRevoke_ok (api : String) (data : JsVal) (h : revokeHandled data) :
    observe (afterRevoke api data) = ([], none, true) := by
  obtain ⟨status, hs, ht⟩ := h
  unfold afterRevoke
  rw [log, observe_text _ _ _ (by decide), hs]
  simp only
  rw [observe_logValue_ok _ _ _ _ ht, observe_summary]

theorem observe_afterRevoke_fail (api : String) (data : JsVal) (h : ¬ revokeHandled data) :
    observe (afterRevoke api data) = ([], some 1, false) := by
  unfold afterRevoke
  rw [log, observe_text _ _ _ (by decide)]
  split
  · exact observe_catchBlock _ _
  · next status hs =>
    have ht : toStringThrows status = true := by
      by_contra hc
      exact h ⟨status, hs, by simpa using hc⟩
    exact observe_logValue_throws _ _ _ _ ht

theorem observe_step6_ok (net : Net) (sent : List Request) (api token : String)
    (tokenId : JsVal)
    (h : Answered net sent (revokeRequest api token tokenId) revokeHandled) :
    observe (step6 api net token tokenId sent)
      = ([revokeRequest api token tokenId], none, true) := by
  obtain ⟨data, hnet, hd⟩ := h
  unfold step6
  rw [step, observe_step, observe_post, hnet]
  simp only
  rw [observe_afterRevoke_ok _ _ hd]

theorem observe_step6_fail (net : Net) (sent : List Request) (api token : String)
    (tokenId : JsVal)
    (h : ¬ Answered net sent (revokeRequest api token tokenId) revokeHandled) :
    observe (step6 api net token tokenId sent)
      = ([revokeRequest api token tokenId], some 1, false) := by
  unfold step6
  rw [step, observe_step, observe_post]
  split
  · rw [observe_catchBlock]
  · next data hnet =>
    rw [observe_afterRevoke_fail _ _ (fun hd => h ⟨data, hnet, hd⟩)]

theorem observe_step5_ok (net : Net) (sent : List Request) (api token : String)
    (tokenId : JsVal) (h : Answered net sent (listRequest api token) authHandled) :
    observe (step5 api net token tokenId sent)
      = (listRequest api token
          :: (observe (step6 api net token tokenId (sent ++ [listRequest api token]))).1,
         (observe (step6 api net token tokenId (sent ++ [listRequest api token]))).2) := by
  obtain ⟨data, hnet, n, hn, ht⟩ := h
  unfold step5
  rw [step, observe_step, observe_post, hnet]
  simp only
  rw [log, observe_text _ _ _ (by decide), hn]
  simp only
  rw [observe_logValue_ok _ _ _ _ ht]

theorem observe_step5_fail (net : Net) (sent : List Request) (api token : String)
    (tokenId : JsVal) (h : ¬ Answered net sent (listRequest api token) authHandled) :
    observe (step5 api net token tokenId sent) = ([listRequest api token], some 1, false) := by
  unfold step5
  rw [step, observe_step, observe_post]
  split
  · rw [observe_catchBlock]
  · next data hnet =>
    rw [log, observe_text _ _ _ (by decide)]
    split
    · rw [observe_catchBlock]
    · next n hn =>
      have ht : toStringThrows n = true := by
        by_contra hc
        exact h ⟨data, hnet, n, hn, by simpa using hc⟩
      rw [observe_logValue_throws _ _ _ _ ht]

theorem observe_step4_ok (net : Net) (sent : List Request) (api token : String)
    (tokenId : JsVal)
    (h : Answered net sent (extendRequest api token tokenId) extendHandled) :
    observe (step4 api net token tokenId sent)
      = (extendRequest api token tokenId
          :: (observe (step5 api net token tokenId
                (sent ++ [extendRequest api token tokenId]))).1,
         (observe (step5 api net token tokenId
                (sent ++ [extendRequest api token tokenId]))).2) := by
  obtain ⟨data, hnet, e, he, ht⟩ := h
  unfold step4
  rw [step, observe_step, observe_post, hnet]
  simp only
  rw [he]
  simp only
  rw [observe_logValue_ok _ _ _ _ ht, log, observe_text _ _ _ (by decide)]

theorem observe_step4_fail (net : Net) (sent : List Request) (api token : String)
    (tokenId : JsVal)
    (h : ¬ Answered net sent (extendRequest api token tokenId) extendHandled) :
    observe (step4 api net token tokenId sent)
      = ([extendRequest api token tokenId], some 1, false) := by
  unfold step4
  rw [step, observe_step, observe_post]
  split
  · rw [observe_catchBlock]
  · next data hnet =>
    split
    · rw [observe_catchBlock]
    · next e he =>
      have ht : toStringThrows e = true := by
        by_contra hc
        exact h ⟨data, hnet, e, he, by simpa using hc⟩
      rw [observe_logValue_throws _ _ _ _ ht]

theorem observe_latestToken_ok (api : String) (data firstToken jwtName status : JsVal)
    (rest : List Event) (h0 : getIndex0 data = .ok firstToken)
    (h1 : getProp firstToken "jwtName" = .ok jwtName) (h2 : toStringThrows jwtName = false)
    (h3 : getProp firstToken "status" = .ok status) (h4 : toStringThrows status = false) :
    observe (latestToken api data rest) = observe rest := by
  unfold latestToken
  rw [h0]
  simp only
  rw [h1]
  simp only [h2, Bool.false_eq_true, if_false]
  rw [h3]
  simp only [h4, Bool.false_eq_true, if_false, logField, observe_field]

theorem observe_latestToken_fail (api : String) (data : JsVal) (rest : List Event)
    (h : ¬ ∃ firstToken jwtName status, getIndex0 data = .ok firstToken
          ∧ getProp firstToken "jwtName" = .ok jwtName ∧ toStringThrows jwtName = false
          ∧ getProp firstToken "status" = .ok status ∧ toStringThrows status = false) :
    observe (latestToken api data rest) = ([], some 1, false) := by
  unfold latestToken
  split
  · exact observe_catchBlock _ _
  · next firstToken h0 =>
    split
    · exact observe_catchBlock _ _
    · next jwtName h1 =>
      split
      · exact observe_catchBlock _ _
      · next h2 =>
        split
        · exact observe_catchBlock _ _
        · next status h3 =>
          split
          · exact observe_catchBlock _ _
          · next h4 =>
            exact absurd ⟨firstToken, jwtName, status, h0, h1, by simpa using h2, h3,
              by simpa using h4⟩ h

theorem observe_afterList_ok (lib : Builtins) (net : Net) (sent : List Request)
    (api token : String) (tokenId data : JsVal) (h : listHandled lib data) :
    observe (afterList lib api net token tokenId sent data)
      = observe (step4 api net token tokenId sent) := by
  obtain ⟨n, hn, ht, hcmp⟩ := h
  unfold afterList
  rw [hn]
  simp only
  rw [observe_logValue_ok _ _ _ _ ht]
  rcases hcmp with hfalse | ⟨htrue, firstToken, jwtName, status, h0, h1, h2, h3, h4⟩
  · rw [hfalse]
  · rw [htrue]
    exact observe_latestToken_ok _ _ _ _ _ _ h0 h1 h2 h3 h4

theorem observe_afterList_fail (lib : Builtins) (net : Net) (sent : List Request)
    (api token : String) (tokenId data : JsVal) (h : ¬ listHandled lib data) :
    observe (afterList lib api net token tokenId sent data) = ([], some 1, false) := by
  unfold afterList
  split
  · exact observe_catchBlock _ _
  · next n hn =>
    by_cases ht : toStringThrows n = true
    · exact observe_logValue_throws _ _ _ _ ht
    · have ht2 : toStringThrows n = false := by simpa using ht
      rw [observe_logValue_ok _ _ _ _ ht2]
      split
      · exact observe_catchBlock _ _
      · next htrue =>
        refine observe_latestToken_fail _ _ _ ?_
        rintro ⟨firstToken, jwtName, status, hrest⟩
        exact h ⟨n, hn, ht2, Or.inr ⟨htrue, firstToken, jwtName, status, hrest⟩⟩
      · next hfalse =>
        exact absurd ⟨n, hn, ht2, Or.inl hfalse⟩ h

theorem observe_step3_ok (lib : Builtins) (net : Net) (sent : List Request)
    (api token : String) (tokenId : JsVal)
    (h : Answered net sent (listRequest api token) (listHandled lib)) :
    observe (step3 lib api net token tokenId sent)
      = (listRequest api token
          :: (observe (step4 api net token tokenId (sent ++ [listRequest api token]))).1,
         (observe (step4 api net token tokenId (sent ++ [listRequest api token]))).2) := by
  obtain ⟨data, hnet, hd⟩ := h
  unfold step3
  rw [step, observe_step, observe_post, hnet]
  simp only
  rw [observe_afterList_ok _ _ _ _ _ _ _ hd]

theorem observe_step3_fail (lib : Builtins) (net : Net) (sent : List Request)
    (api token : String) (tokenId : JsVal)
    (h : ¬ Answered net sent (listRequest api token) (listHandled lib)) :
    observe (step3 lib api net token tokenId sent) = ([listRequest api token], some 1, false) := by
  unfold step3
  rw [step, observe_step, observe_post]
  split
  · rw [observe_catchBlock]
  · next data hnet =>
    rw [observe_afterList_fail _ _ _ _ _ _ _ (fun hd => h ⟨data, hnet, hd⟩)]

theorem observe_step2_ok (lib : Builtins) (net : Net) (sent : List Request)
    (api token : String) (tokenId : JsVal) (h : passesStep2 lib token) :
    observe (step2 lib api net token tokenId sent)
      = observe (step3 lib api net token tokenId sent) := by
  obtain ⟨header, payload, signature, hdec⟩ := h
  unfold step2
  rw [hdec]
  rfl

theorem observe_step2_fail (lib : Builtins) (net : Net) (sent : List Request)
    (api token : String) (tokenId : JsVal) (h : ¬ passesStep2 lib token) :
    observe (step2 lib api net token tokenId sent) = ([], some 1, false) := by
  have hs := step2_stops lib net sent api token tokenId h
  unfold step2
  rw [step, observe_step]
  split
  · exact observe_catchBlock _ _
  · next decoded hdec =>
    rcases jwtDecode_ok lib token decoded hdec with hnull | hpass
    · subst hnull
      simp [getProp, observe_catchBlock]
    · exact absurd hpass h

theorem observe_eq (t : List Event) (rs : List Request) (code : Option Nat) (printed : Bool)
    (h : observe t = (rs, code, printed)) :
    requests t = rs ∧ exitCode t = code ∧ summaryPrinted t = printed := by
  simp only [observe, Prod.mk.injEq] at h
  exact h

theorem observe_main_ok (lib : Builtins) (envVar : Option String) (net : Net)
    (token : String) (tokenId : JsVal)
    (h : GeneratedBy net (TIM_API_URL envVar) token tokenId) :
    observe (main lib envVar net)
      = (generateRequest (TIM_API_URL envVar)
          :: (observe (step2 lib (TIM_API_URL envVar) net token tokenId
                [generateRequest (TIM_API_URL envVar)])).1,
         (observe (step2 lib (TIM_API_URL envVar) net token tokenId
                [generateRequest (TIM_API_URL envVar)])).2) := by
  rcases main_shape lib envVar net with ⟨data, tok, tid, hnet, htok, hid, _, _, hobs⟩
    | ⟨hno, _, _, _⟩
  · obtain ⟨h1, h2, _⟩ := generatedBy_data _ _ _ _ data hnet h
    rw [htok] at h1
    rw [hid] at h2
    cases h1
    cases h2
    exact hobs
  · exact absurd ⟨token, tokenId, h⟩ hno

theorem observe_main_fail (lib : Builtins) (envVar : Option String) (net : Net)
    (h : ¬ ∃ token tokenId, GeneratedBy net (TIM_API_URL envVar) token tokenId) :
    observe (main lib envVar net) = ([generateRequest (TIM_API_URL envVar)], some 1, false) := by
  rcases main_shape lib envVar net with ⟨_, tok, tid, _, _, _, _, hgen, _⟩
    | ⟨_, hreq, hexit, hsum⟩
  · exact absurd ⟨tok, tid, hgen⟩ h
  · simp [observe, hreq, hexit, hsum]

/-- What is observed of a run whose step 1 completes, step by step: the first step that
fails ends the run with the requests sent so far, exit code 1 and no summary; with no
failing step all five requests are sent, there is no exit and the summary is printed. -/
theorem observe_main_steps (lib : Builtins) (envVar : Option String) (net : Net)
    (token : String) (tokenId : JsVal)
    (h : GeneratedBy net (TIM_API_URL envVar) token tokenId) :
    (¬ StepSucceeds lib net (TIM_API_URL envVar) token tokenId 2 →
      observe (main lib envVar net)
        = ((plannedRequests (TIM_API_URL envVar) token tokenId).take 1, some 1, false))
    ∧ (StepSucceeds lib net (TIM_API_URL envVar) token tokenId 2 →
      (¬ StepSucceeds lib net (TIM_API_URL envVar) token tokenId 3 →
        observe (main lib envVar net)
          = ((plannedRequests (TIM_API_URL envVar) token tokenId).take 2, some 1, false))
      ∧ (StepSucceeds lib net (TIM_API_URL envVar) token tokenId 3 →
        (¬ StepSucceeds lib net (TIM_API_URL envVar) token tokenId 4 →
          observe (main lib envVar net)
            = ((plannedRequests (TIM_API_URL envVar) token tokenId).take 3, some 1, false))
        ∧ (StepSucceeds lib net (TIM_API_URL envVar) token tokenId 4 →
          (¬ StepSucceeds lib net (TIM_API_URL envVar) token tokenId 5 →
            observe (main lib envVar net)
              = ((plannedRequests (TIM_API_URL envVar) token tokenId).take 4, some 1, false))
          ∧ (StepSucceeds lib net (TIM_API_URL envVar) token tokenId 5 →
            (¬ StepSucceeds lib net (TIM_API_URL envVar) token tokenId 6 →
              observe (main lib envVar net)
                = ((plannedRequests (TIM_API_URL envVar) token tokenId).take 5, some 1,
                    false))
            ∧ (StepSucceeds lib net (TIM_API_URL envVar) token tokenId 6 →
              observe (main lib envVar net)
                = (plannedRequests (TIM_API_URL envVar) token tokenId, none, true)))))) := by
  have hmain := observe_main_ok lib envVar net token tokenId h
  refine ⟨?_, fun h2 => ⟨?_, fun h3 => ⟨?_, fun h4 => ⟨?_, fun h5 => ⟨?_, fun h6 => ?_⟩⟩⟩⟩⟩
  · intro hf
    rw [hmain, observe_step2_fail _ _ _ _ _ _ hf]
    rfl
  · intro hf
    rw [hmain, observe_step2_ok _ _ _ _ _ _ h2, observe_step3_fail _ _ _ _ _ _ hf]
    rfl
  · intro hf
    rw [hmain, observe_step2_ok _ _ _ _ _ _ h2, observe_step3_ok _ _ _ _ _ _ h3]
    simp only [List.cons_append, List.nil_append]
    rw [observe_step4_fail _ _ _ _ _ hf]
    rfl
  · intro hf
    rw [hmain, observe_step2_ok _ _ _ _ _ _ h2, observe_step3_ok _ _ _ _ _ _ h3]
    simp only [List.cons_append, List.nil_append]
    rw [observe_step4_ok _ _ _ _ _ h4]
    simp only [List.cons_append, List.nil_append]
    rw [observe_step5_fail _ _ _ _ _ hf]
    rfl
  · intro hf
    rw [hmain, observe_step2_ok _ _ _ _ _ _ h2, observe_step3_ok _ _ _ _ _ _ h3]
    simp only [List.cons_append, List.nil_append]
    rw [observe_step4_ok _ _ _ _ _ h4]
    simp only [List.cons_append, List.nil_append]
    rw [observe_step5_ok _ _ _ _ _ h5]
    simp only [List.cons_append, List.nil_append]
    rw [observe_step6_fail _ _ _ _ _ hf]
    rfl
  · rw [hmain, observe_step2_ok _ _ _ _ _ _ h2, observe_step3_ok _ _ _ _ _ _ h3]
    simp only [List.cons_append, List.nil_append]
    rw [observe_step4_ok _ _ _ _ _ h4]
    simp only [List.cons_append, List.nil_append]
    rw [observe_step5_ok _ _ _ _ _ h5]
    simp only [List.cons_append, List.nil_append]
    rw [observe_step6_ok _ _ _ _ _ h6]
    rfl

theorem main_stops_without_decoded (lib : Builtins) (envVar : Option String) (net : Net)
    (data : JsVal) (token : String)
    (hnet : net [] (generateRequest (TIM_API_URL envVar)) = .resolved data)
    (htoken : getProp data "token" = .ok (.str token)) (hnp : ¬ passesStep2 lib token) :
    requests (main lib envVar net) = [generateRequest (TIM_API_URL envVar)]
    ∧ exitCode (main lib envVar net) = some 1 := by
  by_cases hgen : ∃ tok tokenId, GeneratedBy net (TIM_API_URL envVar) tok tokenId
  · obtain ⟨tok, tokenId, hg⟩ := hgen
    have h1 := (generatedBy_data _ _ _ _ data hnet hg).1
    rw [htoken] at h1
    cases h1
    have h := observe_eq _ _ _ _ ((observe_main_steps lib envVar net token tokenId hg).1 hnp)
    exact ⟨h.1, h.2.1⟩
  · have h := observe_eq _ _ _ _ (observe_main_fail lib envVar net hgen)
    exact ⟨h.1, h.2.1⟩

theorem main_lists_after_step2 (lib : Builtins) (envVar : Option String) (net : Net)
    (token : String) (tokenId : JsVal)
    (hgen : GeneratedBy net (TIM_API_URL envVar) token tokenId) (hp : passesStep2 lib token) :
    ∃ rest, requests (main lib envVar net)
      = generateRequest (TIM_API_URL envVar) :: listRequest (TIM_API_URL envVar) token :: rest := by
  have h1 := congrArg Prod.fst (observe_main_ok lib envVar net token tokenId hgen)
  have h2 := congrArg Prod.fst (observe_step2_ok lib net [generateRequest (TIM_API_URL envVar)]
    (TIM_API_URL envVar) token tokenId hp)
  simp only [observe] at h1 h2
  rw [h1, h2]
  unfold step3
  exact ⟨_, rfl⟩

/-! ## Part I: the claims on the script -/

/-- C1. In every run of `main`, a request carries an `Authorization` header exactly
when it goes to a protected operation (list/me, extend, revoke); the header's value is
then `Bearer ` followed by the token of the generate response; the generate request
carries none. -/
theorem authorization_header_iff_protected (lib : Builtins) (envVar : Option String)
    (net : Net) (r : Request) (hr : r ∈ requests (main lib envVar net)) :
    (r.authorization.isSome ↔ isProtected (TIM_API_URL envVar) r)
    ∧ (∀ value, r.authorization = some value →
        ∃ data token, net [] (generateRequest (TIM_API_URL envVar)) = .resolved data
          ∧ getProp data "token" = .ok (.str token) ∧ value = "Bearer " ++ token)
    ∧ (r.url = TIM_API_URL envVar ++ "/jwt/custom/generate" → r.authorization = none) := by
  rcases main_shape lib envVar net with ⟨data, token, tokenId, hnet, htoken, _, hshape, _⟩
    | ⟨_, hreq, _, _⟩
  · have hmem := shape_mem _ _ _ _ hshape r hr
    rcases authorization_planned _ token tokenId r hmem with ⟨_, hnone, hnp⟩ | ⟨hsome, hp, hne⟩
    · refine ⟨?_, ?_, fun _ => hnone⟩
      · simp [hnone, hnp]
      · intro value hv
        rw [hnone] at hv
        cases hv
    · refine ⟨?_, ?_, fun hurl => absurd hurl hne⟩
      · simp [hsome, hp]
      · intro value hv
        rw [hsome] at hv
        cases hv
        exact ⟨data, token, hnet, htoken, rfl⟩
  · rw [hreq] at hr
    have hmem : r ∈ plannedRequests (TIM_API_URL envVar) "" .undefined := by
      simp only [List.mem_singleton] at hr
      subst hr
      simp [plannedRequests]
    rcases authorization_planned _ _ _ r hmem with ⟨_, hnone, hnp⟩ | ⟨_, _, hne⟩
    · refine ⟨?_, ?_, fun _ => hnone⟩
      · simp [hnone, hnp]
      · intro value hv
        rw [hnone] at hv
        cases hv
    · simp only [List.mem_singleton] at hr
      subst hr
      exact absurd rfl hne

/-- C1 at the sample run: its list request carries `Bearer ` and the sample token. -/
theorem authorization_header_iff_protected_witness :
    listRequest "http://localhost:8085" (sampleToken "AAAA")
        ∈ requests (main refBuiltins none (sampleNet (sampleToken "AAAA")))
    ∧ (listRequest "http://localhost:8085" (sampleToken "AAAA")).authorization
        = some ("Bearer " ++ sampleToken "AAAA")
    ∧ ((listRequest "http://localhost:8085" (sampleToken "AAAA")).authorization.isSome
        ↔ isProtected (TIM_API_URL none) (listRequest "http://localhost:8085" (sampleToken "AAAA"))) :=
  have hmem : listRequest "http://localhost:8085" (sampleToken "AAAA")
      ∈ requests (main refBuiltins none (sampleNet (sampleToken "AAAA"))) := by
    show _ ∈ plannedRequests "http://localhost:8085" (sampleToken "AAAA") (.str "t1")
    simp [plannedRequests]
  ⟨hmem, rfl,
    (authorization_header_iff_protected refBuiltins none (sampleNet (sampleToken "AAAA"))
      (listRequest "http://localhost:8085" (sampleToken "AAAA")) hmem).1⟩

/-- C2, counterexample. Step 2 does not check the signature: the sample run gets past
step 2, presents the token on every protected request and reaches its end, with the
signature segment `AAAA` and just as well with `BBBB` on the same signing input; so no
verification under which a signing input has one valid signature at most is applied in
step 2. -/
theorem step2_accepts_any_signature :
    sampleToken "AAAA" = sampleSigningInput ++ "." ++ "AAAA"
    ∧ sampleToken "BBBB" = sampleSigningInput ++ "." ++ "BBBB"
    ∧ passesStep2 refBuiltins (sampleToken "AAAA")
    ∧ passesStep2 refBuiltins (sampleToken "BBBB")
    ∧ requests (main refBuiltins none (sampleNet (sampleToken "AAAA")))
        = plannedRequests "http://localhost:8085" (sampleToken "AAAA") (.str "t1")
    ∧ requests (main refBuiltins none (sampleNet (sampleToken "BBBB")))
        = plannedRequests "http://localhost:8085" (sampleToken "BBBB") (.str "t1")
    ∧ exitCode (main refBuiltins none (sampleNet (sampleToken "AAAA"))) = none
    ∧ exitCode (main refBuiltins none (sampleNet (sampleToken "BBBB"))) = none
    ∧ ¬ SignatureCheckedAtStep2 refBuiltins := by
  have hA : passesStep2 refBuiltins (sampleToken "AAAA") := ⟨_, _, _, rfl⟩
  have hB : passesStep2 refBuiltins (sampleToken "BBBB") := ⟨_, _, _, rfl⟩
  refine ⟨rfl, rfl, hA, hB, rfl, rfl, rfl, rfl, ?_⟩
  rintro ⟨verifies, huniq, hall⟩
  have h1 := hall sampleSigningInput "AAAA" hA
  have h2 := hall sampleSigningInput "BBBB" hB
  exact absurd (huniq _ _ _ h1 h2) (by decide)

/-- C2, amended. Step 2 decodes the token and checks its structure only. A token of the
generate response without the three-segment structure ends the run at step 2: only the
generate request was sent and the exit code is 1. Whether a token gets past step 2 does
not depend on its signature segment. A token that gets past step 2, step 1 having
completed, is presented on the list request. -/
theorem step2_checks_structure_only :
    (∀ lib envVar net data token,
        net [] (generateRequest (TIM_API_URL envVar)) = .resolved data →
        getProp data "token" = .ok (.str token) → jwsSegments token = none →
        requests (main lib envVar net) = [generateRequest (TIM_API_URL envVar)]
        ∧ exitCode (main lib envVar net) = some 1)
    ∧ (∀ lib signingInput signature1 signature2,
        signature1.toList.all isBase64UrlChar = true →
        signature2.toList.all isBase64UrlChar = true →
        (passesStep2 lib (signingInput ++ "." ++ signature1)
          ↔ passesStep2 lib (signingInput ++ "." ++ signature2)))
    ∧ (∀ lib envVar net token tokenId,
        GeneratedBy net (TIM_API_URL envVar) token tokenId → passesStep2 lib token →
        ∃ rest, requests (main lib envVar net)
          = generateRequest (TIM_API_URL envVar)
            :: listRequest (TIM_API_URL envVar) token :: rest) := by
  refine ⟨?_, ?_, ?_⟩
  · intro lib envVar net data token hnet htoken hseg
    exact main_stops_without_decoded lib envVar net data token hnet htoken
      (not_passesStep2_of_shape lib token hseg)
  · intro lib x s1 s2 h1 h2
    exact ⟨passesStep2_signature lib x s1 s2 h1 h2, passesStep2_signature lib x s2 s1 h2 h1⟩
  · intro lib envVar net token tokenId hgen hp
    exact main_lists_after_step2 lib envVar net token tokenId hgen hp

/-- C3, counterexample. The body of the generate request that `main` sends in the sample
run is not the body of the example scenario: its claims map has two more entries. -/
theorem generate_body_not_scenario :
    (requests (main refBuiltins none (sampleNet (sampleToken "AAAA")))).head?.map Request.data
      ≠ some scenarioGenerateBody := by
  show some generateBody ≠ some scenarioGenerateBody
  simp [generateBody, scenarioGenerateBody]

/-- C3, amended. The first request of every run of `main` is the generate request, without
headers, with `JWTName` equal to `example-token`, `expirationInMinutes` equal to 60 (a
positive integer) and a claims map `content` with `sub`, `role`, `email` and
`customClaim`, whose `sub` and `role` are those of the example scenario. -/
theorem generate_request_body (lib : Builtins) (envVar : Option String) (net : Net) :
    ∃ content rest,
      requests (main lib envVar net)
        = { url := TIM_API_URL envVar ++ "/jwt/custom/generate",
            data := .obj [("JWTName", .str "example-token"), ("content", .obj content),
                          ("expirationInMinutes", .num 60)],
            headers := [] } :: rest
      ∧ content = [("sub", .str "user123"), ("role", .str "user"),
                   ("email", .str "user@example.com"), ("customClaim", .str "custom-value")]
      ∧ lookupField "sub" content = some (.str "user123")
      ∧ lookupField "role" content = some (.str "user")
      ∧ (0 : Int) < 60 := by
  refine ⟨_, (requests (main lib envVar net)).tail, ?_, rfl, rfl, rfl, by decide⟩
  rfl

/-- C4, counterexample. In the sample run every request succeeds and `main` reaches its
end, and the paths requested are generate, list/me, extend, list/me, revoke: not the
order of the example scenario, which lists after the revocation. -/
theorem request_order_not_scenario :
    exitCode (main refBuiltins none (sampleNet (sampleToken "AAAA"))) = none
    ∧ allResolved (sampleNet (sampleToken "AAAA")) []
        (requests (main refBuiltins none (sampleNet (sampleToken "AAAA"))))
    ∧ (requests (main refBuiltins none (sampleNet (sampleToken "AAAA")))).map Request.url
        = ["http://localhost:8085/jwt/custom/generate", "http://localhost:8085/jwt/custom/list/me",
           "http://localhost:8085/jwt/custom/extend", "http://localhost:8085/jwt/custom/list/me",
           "http://localhost:8085/jwt/custom/revoke"]
    ∧ (requests (main refBuiltins none (sampleNet (sampleToken "AAAA")))).map Request.url
        ≠ scenarioOrder "http://localhost:8085" := by
  refine ⟨by decide, ?_, by decide, by decide⟩
  show allResolved _ [] (plannedRequests "http://localhost:8085" (sampleToken "AAAA") (.str "t1"))
  exact ⟨⟨_, rfl⟩, ⟨_, rfl⟩, ⟨_, rfl⟩, ⟨_, rfl⟩, ⟨_, rfl⟩, trivial⟩

/-- C4, amended. In every run of `main` the requests are an initial part of: Generate,
ListMine, Extend, ListMine, Revoke, the last four presenting the token of the generate
response; in a run that reaches its end (no exit) they are all five, each answered with
success, so the second ListMine comes before Revoke and no request follows Revoke. -/
theorem request_order (lib : Builtins) (envVar : Option String) (net : Net) :
    ∃ token tokenId,
      requests (main lib envVar net) <+: plannedRequests (TIM_API_URL envVar) token tokenId
      ∧ plannedRequests (TIM_API_URL envVar) token tokenId
          = [generateRequest (TIM_API_URL envVar), listRequest (TIM_API_URL envVar) token,
             extendRequest (TIM_API_URL envVar) token tokenId,
             listRequest (TIM_API_URL envVar) token,
             revokeRequest (TIM_API_URL envVar) token tokenId]
      ∧ (exitCode (main lib envVar net) = none →
          requests (main lib envVar net) = plannedRequests (TIM_API_URL envVar) token tokenId
          ∧ allResolved net [] (requests (main lib envVar net))
          ∧ ∃ data, net [] (generateRequest (TIM_API_URL envVar)) = .resolved data
              ∧ getProp data "token" = .ok (.str token)
              ∧ getProp data "tokenId" = .ok tokenId) := by
  rcases main_shape lib envVar net with ⟨data, token, tokenId, hnet, htoken, hid, hshape, _⟩
    | ⟨_, hreq, hexit, _⟩
  · refine ⟨token, tokenId, shape_prefix _ _ _ _ hshape, rfl, ?_⟩
    intro hnone
    rcases hshape with ⟨h1, h2, _, _⟩ | ⟨_, _, _, _, _, _, h5, _⟩
    · exact ⟨h1, by rw [h1]; exact h2, data, hnet, htoken, hid⟩
    · rw [hnone] at h5
      cases h5
  · refine ⟨"", .undefined, ?_, rfl, ?_⟩
    · rw [hreq]
      exact ⟨_, rfl⟩
    · intro hnone
      rw [hnone] at hexit
      cases hexit

/-- C5. In every run of `main`, a request to extend or to revoke presents the token of
the generate response as its bearer credential and names, in its body, the tokenId of
that same response; the extend body asks for 30 minutes. -/
theorem extend_revoke_target_presented_token (lib : Builtins) (envVar : Option String)
    (net : Net) (r : Request) (hr : r ∈ requests (main lib envVar net))
    (hurl : r.url = TIM_API_URL envVar ++ "/jwt/custom/extend"
      ∨ r.url = TIM_API_URL envVar ++ "/jwt/custom/revoke") :
    ∃ data token tokenId,
      net [] (generateRequest (TIM_API_URL envVar)) = .resolved data
      ∧ getProp data "token" = .ok (.str token)
      ∧ getProp data "tokenId" = .ok tokenId
      ∧ r.headers = [("Authorization", "Bearer " ++ token)]
      ∧ (r.url = TIM_API_URL envVar ++ "/jwt/custom/extend" →
          r.data = .obj [("tokenId", tokenId), ("extensionInMinutes", .num 30)])
      ∧ (r.url = TIM_API_URL envVar ++ "/jwt/custom/revoke" →
          r.data = .obj [("tokenId", tokenId)]) := by
  have hne : ∀ (a b : String), a ≠ b → TIM_API_URL envVar ++ a ≠ TIM_API_URL envVar ++ b :=
    fun a b hab h => hab (string_append_left_cancel _ _ _ h)
  rcases main_shape lib envVar net with ⟨data, token, tokenId, hnet, htoken, hid, hshape, _⟩
    | ⟨_, hreq, _, _⟩
  · refine ⟨data, token, tokenId, hnet, htoken, hid, ?_⟩
    have hmem := shape_mem _ _ _ _ hshape r hr
    simp only [plannedRequests, List.mem_cons, List.mem_singleton, List.not_mem_nil,
      or_false] at hmem
    rcases hmem with h | h | h | h | h
    · subst h
      rcases hurl with h | h
      · exact absurd h (hne _ _ (by decide))
      · exact absurd h (hne _ _ (by decide))
    · subst h
      rcases hurl with h | h
      · exact absurd h (hne _ _ (by decide))
      · exact absurd h (hne _ _ (by decide))
    · subst h
      exact ⟨rfl, fun _ => rfl, fun h => absurd h (hne _ _ (by decide))⟩
    · subst h
      rcases hurl with h | h
      · exact absurd h (hne _ _ (by decide))
      · exact absurd h (hne _ _ (by decide))
    · subst h
      exact ⟨rfl, fun h => absurd h (hne _ _ (by decide)), fun _ => rfl⟩
  · rw [hreq] at hr
    simp only [List.mem_singleton] at hr
    subst hr
    rcases hurl with h | h
    · exact absurd h (hne _ _ (by decide))
    · exact absurd h (hne _ _ (by decide))

/-- C5 at the sample run: its extend request names tokenId `t1` of the generate response
and presents that response's token. -/
theorem extend_revoke_target_presented_token_witness :
    extendRequest "http://localhost:8085" (sampleToken "AAAA") (.str "t1")
        ∈ requests (main refBuiltins none (sampleNet (sampleToken "AAAA")))
    ∧ ∃ data token tokenId,
      sampleNet (sampleToken "AAAA") [] (generateRequest (TIM_API_URL none)) = .resolved data
      ∧ getProp data "token" = .ok (.str token)
      ∧ getProp data "tokenId" = .ok tokenId
      ∧ (extendRequest "http://localhost:8085" (sampleToken "AAAA") (.str "t1")).headers
          = [("Authorization", "Bearer " ++ token)]
      ∧ ((extendRequest "http://localhost:8085" (sampleToken "AAAA") (.str "t1")).url
            = TIM_API_URL none ++ "/jwt/custom/extend" →
          (extendRequest "http://localhost:8085" (sampleToken "AAAA") (.str "t1")).data
            = .obj [("tokenId", tokenId), ("extensionInMinutes", .num 30)])
      ∧ ((extendRequest "http://localhost:8085" (sampleToken "AAAA") (.str "t1")).url
            = TIM_API_URL none ++ "/jwt/custom/revoke" →
          (extendRequest "http://localhost:8085" (sampleToken "AAAA") (.str "t1")).data
            = .obj [("tokenId", tokenId)]) :=
  have hmem : extendRequest "http://localhost:8085" (sampleToken "AAAA") (.str "t1")
      ∈ requests (main refBuiltins none (sampleNet (sampleToken "AAAA"))) := by
    show _ ∈ plannedRequests "http://localhost:8085" (sampleToken "AAAA") (.str "t1")
    simp [plannedRequests]
  ⟨hmem, extend_revoke_target_presented_token refBuiltins none (sampleNet (sampleToken "AAAA"))
    (extendRequest "http://localhost:8085" (sampleToken "AAAA") (.str "t1")) hmem (Or.inl rfl)⟩

/-- C10. Fail-fast. The first step of `main` that fails ends the run: if step 1 does
not complete, or if step `s` (2 to 6) is the first that does not succeed (a request
rejected or unanswered, or a response whose reading or printing throws), the requests
sent are those up to that step and no more, the exit code is 1 and the summary is not
printed; the summary is printed, without an exit, only when all steps succeed, all
five requests having been answered with success. A run that exits ends with the `catch`
block: after the error nothing but its report and the exit follows. A rejected request
is the last request of its run. -/
theorem main_fail_fast (lib : Builtins) (envVar : Option String) (net : Net) :
    ((¬ ∃ token tokenId, GeneratedBy net (TIM_API_URL envVar) token tokenId) →
        requests (main lib envVar net) = [generateRequest (TIM_API_URL envVar)]
        ∧ exitCode (main lib envVar net) = some 1
        ∧ summaryPrinted (main lib envVar net) = false)
    ∧ (∀ token tokenId, GeneratedBy net (TIM_API_URL envVar) token tokenId →
        (∀ s, 2 ≤ s → s ≤ 6 →
          (∀ j, 2 ≤ j → j < s → StepSucceeds lib net (TIM_API_URL envVar) token tokenId j) →
          ¬ StepSucceeds lib net (TIM_API_URL envVar) token tokenId s →
          requests (main lib envVar net)
            = (plannedRequests (TIM_API_URL envVar) token tokenId).take (s - 1)
          ∧ exitCode (main lib envVar net) = some 1
          ∧ summaryPrinted (main lib envVar net) = false)
        ∧ ((∀ s, 2 ≤ s → s ≤ 6 → StepSucceeds lib net (TIM_API_URL envVar) token tokenId s) →
          requests (main lib envVar net) = plannedRequests (TIM_API_URL envVar) token tokenId
          ∧ exitCode (main lib envVar net) = none
          ∧ summaryPrinted (main lib envVar net) = true))
    ∧ ((exitCode (main lib envVar net) = none ∧ summaryPrinted (main lib envVar net) = true
        ∧ (requests (main lib envVar net)).length = 5
        ∧ allResolved net [] (requests (main lib envVar net)))
      ∨ (exitCode (main lib envVar net) = some 1
        ∧ summaryPrinted (main lib envVar net) = false
        ∧ ∃ before error, main lib envVar net = before ++ catchBlock (TIM_API_URL envVar) error
            ∧ exitCode before = none
            ∧ requests (main lib envVar net) = requests before))
    ∧ (∀ pre r post f, requests (main lib envVar net) = pre ++ r :: post →
        net pre r = .rejected f → post = [] ∧ exitCode (main lib envVar net) = some 1)
    ∧ (∀ data, net [] (generateRequest (TIM_API_URL envVar)) = .resolved data →
        (∀ token, getProp data "token" ≠ .ok (.str token)) →
        requests (main lib envVar net) = [generateRequest (TIM_API_URL envVar)]
        ∧ exitCode (main lib envVar net) = some 1)
    ∧ (∀ data token, net [] (generateRequest (TIM_API_URL envVar)) = .resolved data →
        getProp data "token" = .ok (.str token) → ¬ passesStep2 lib token →
        requests (main lib envVar net) = [generateRequest (TIM_API_URL envVar)]
        ∧ exitCode (main lib envVar net) = some 1) := by
  have hends : exitCode (main lib envVar net) = some 1 →
      ∃ before error, main lib envVar net = before ++ catchBlock (TIM_API_URL envVar) error
        ∧ exitCode before = none ∧ requests (main lib envVar net) = requests before := by
    intro hexit
    rcases ends_main lib envVar net with hnone | ⟨before, e, ht, hb⟩
    · rw [hnone] at hexit
      cases hexit
    · refine ⟨before, e, ht, hb, ?_⟩
      rw [ht, requests_append, requests_catchBlock, List.append_nil]
  refine ⟨?_, ?_, ?_, ?_, ?_, ?_⟩
  · intro hno
    exact observe_eq _ _ _ _ (observe_main_fail lib envVar net hno)
  · intro token tokenId hgen
    obtain ⟨f2, hrest2⟩ := observe_main_steps lib envVar net token tokenId hgen
    constructor
    · intro s hs2 hs6 hprev hfail
      have hcases : s = 2 ∨ s = 3 ∨ s = 4 ∨ s = 5 ∨ s = 6 := by omega
      rcases hcases with h | h | h | h | h <;> subst h
      · exact observe_eq _ _ _ _ (f2 hfail)
      · exact observe_eq _ _ _ _ ((hrest2 (hprev 2 (by omega) (by omega))).1 hfail)
      · exact observe_eq _ _ _ _
          (((hrest2 (hprev 2 (by omega) (by omega))).2
            (hprev 3 (by omega) (by omega))).1 hfail)
      · exact observe_eq _ _ _ _
          ((((hrest2 (hprev 2 (by omega) (by omega))).2
            (hprev 3 (by omega) (by omega))).2 (hprev 4 (by omega) (by omega))).1 hfail)
      · exact observe_eq _ _ _ _
          (((((hrest2 (hprev 2 (by omega) (by omega))).2
            (hprev 3 (by omega) (by omega))).2 (hprev 4 (by omega) (by omega))).2
              (hprev 5 (by omega) (by omega))).1 hfail)
    · intro hall
      exact observe_eq _ _ _ _
        (((((hrest2 (hall 2 (by omega) (by omega))).2
          (hall 3 (by omega) (by omega))).2 (hall 4 (by omega) (by omega))).2
            (hall 5 (by omega) (by omega))).2 (hall 6 (by omega) (by omega)))
  · rcases main_shape lib envVar net with ⟨_, _, _, _, _, _, hshape, _⟩
      | ⟨_, _, hexit, hsum⟩
    · rcases hshape with ⟨h1, h2, h3, h4⟩ | ⟨_, _, _, _, _, _, h5, h6⟩
      · left
        exact ⟨h3, h4, by rw [h1]; rfl, by rw [h1]; exact h2⟩
      · exact Or.inr ⟨h5, h6, hends h5⟩
    · exact Or.inr ⟨hexit, hsum, hends hexit⟩
  · intro pre r post f hsplit hrej
    rcases main_shape lib envVar net with ⟨_, _, _, _, _, _, hshape, _⟩
      | ⟨_, hreq, hexit, _⟩
    · exact shape_rejected_last net _ _ hshape pre post r hsplit f hrej
    · rw [hreq] at hsplit
      refine ⟨?_, hexit⟩
      have hlen := congrArg List.length hsplit
      simp at hlen
      have : post.length = 0 := by omega
      exact List.length_eq_zero.mp this
  · intro data hnet hnotoken
    have hno : ¬ ∃ token tokenId, GeneratedBy net (TIM_API_URL envVar) token tokenId := by
      rintro ⟨token, tokenId, hg⟩
      exact hnotoken token (generatedBy_data _ _ _ _ data hnet hg).1
    have h := observe_eq _ _ _ _ (observe_main_fail lib envVar net hno)
    exact ⟨h.1, h.2.1⟩
  · intro data token hnet htoken hnp
    exact main_stops_without_decoded lib envVar net data token hnet htoken hnp

/-! ## Lemmas on the store -/

theorem Store.get_tokenId (store : Store) (tokenId : String) (r : TokenRecord)
    (h : store.get tokenId = .ok r) : r.tokenId = tokenId := by
  induction store with
  | nil => simp [Store.get] at h
  | cons x rest ih =>
    unfold Store.get at h
    split at h
    · next hx =>
      cases h
      exact hx
    · exact ih h

theorem Store.get_update (store : Store) (tokenId : String) (r : TokenRecord)
    (mutation : TokenRecord → TokenRecord) (h : store.get tokenId = .ok r)
    (hid : (mutation r).tokenId = tokenId) :
    (store.update tokenId mutation).get tokenId = .ok (mutation r) := by
  induction store with
  | nil => simp [Store.get] at h
  | cons x rest ih =>
    unfold Store.get at h
    unfold Store.update
    split at h
    · next hx =>
      cases h
      simp [hx, Store.get, hid]
    · next hx =>
      simp [hx, Store.get, ih h]

theorem Store.update_update (store : Store) (tokenId : String) (r : TokenRecord)
    (mutation : TokenRecord → TokenRecord) (h : store.get tokenId = .ok r)
    (hid : (mutation r).tokenId = tokenId) (hidem : mutation (mutation r) = mutation r) :
    (store.update tokenId mutation).update tokenId mutation = store.update tokenId mutation := by
  induction store with
  | nil => rfl
  | cons x rest ih =>
    unfold Store.get at h
    split at h
    · next hx =>
      cases h
      simp [Store.update, hx, hid, hidem]
    · next hx =>
      simp [Store.update, hx, ih h]

theorem extend_ok (store store2 : Store) (now : Int) (tokenId : String) (ext : Int)
    (caller : String) (e : Int) (h : extend store now tokenId ext caller = .ok (store2, e)) :
    ∃ r, store.get tokenId = .ok r ∧ r.ownerId = caller ∧ effectiveStatus now r = .active
      ∧ e = max r.expiresAt now + ext
      ∧ store2.get tokenId = .ok { r with expiresAt := e } := by
  unfold extend at h
  split at h
  · cases h
  · next r hget =>
    split at h
    · cases h
    · next hown =>
      split at h
      · cases h
      · cases h
      · next hact =>
        simp only [Except.ok.injEq, Prod.mk.injEq] at h
        obtain ⟨hs, he⟩ := h
        refine ⟨r, hget, by simpa using hown, hact, he.symm, ?_⟩
        rw [← hs, ← he]
        exact Store.get_update store tokenId r _ hget (Store.get_tokenId store tokenId r hget)

theorem extendResults_chain (tokenId : String) (calls : List ExtendCall)
    (hpos : ∀ c ∈ calls, 0 < c.extensionInMinutes) :
    ∀ (store : Store) (lo : Int), (∀ r, store.get tokenId = .ok r → lo ≤ r.expiresAt) →
      List.Chain (· ≤ ·) lo (extendResults store tokenId calls) := by
  induction calls with
  | nil =>
    intro store lo _
    exact List.Chain.nil
  | cons c rest ih =>
    intro store lo hlo
    have hrest : ∀ c2 ∈ rest, 0 < c2.extensionInMinutes :=
      fun c2 hc2 => hpos c2 (List.mem_cons_of_mem _ hc2)
    have hc : 0 < c.extensionInMinutes := hpos c (List.mem_cons_self _ _)
    unfold extendResults
    split
    · next store2 e hext =>
      obtain ⟨r, hget, _, _, he, hget2⟩ := extend_ok _ _ _ _ _ _ _ hext
      have hle : lo ≤ e := by
        have h1 := hlo r hget
        have h2 : r.expiresAt ≤ max r.expiresAt c.now := le_max_left _ _
        omega
      refine List.Chain.cons hle (ih hrest store2 e ?_)
      intro r2 hr2
      rw [hget2] at hr2
      cases hr2
      exact le_refl _
    · exact ih hrest store lo hlo

theorem extendResults_absent (tokenId : String) (calls : List ExtendCall) (store : Store)
    (e : TimError) (h : store.get tokenId = .error e) :
    extendResults store tokenId calls = [] := by
  induction calls with
  | nil => rfl
  | cons c rest ih =>
    unfold extendResults
    have : extend store c.now tokenId c.extensionInMinutes c.callerOwnerId = .error e := by
      simp [extend, h]
    rw [this]
    exact ih

/-! ## Part II: the claims on the engine -/

/-- C6. Revoke is idempotent: for a record of the store and its owner as caller, Revoke
succeeds with status revoked, a second Revoke on the same tokenId succeeds with status
revoked again, and the store after the second call is the store after the first. -/
theorem revoke_idempotent (store : Store) (tokenId caller : String) (r : TokenRecord)
    (hget : store.get tokenId = .ok r) (hown : r.ownerId = caller) :
    ∃ store1, revoke store tokenId caller = .ok (store1, .revoked)
      ∧ revoke store1 tokenId caller = .ok (store1, .revoked)
      ∧ store1.get tokenId = .ok { r with status := .revoked } := by
  have hid := Store.get_tokenId store tokenId r hget
  have hget1 := Store.get_update store tokenId r (fun c => { c with status := .revoked }) hget hid
  refine ⟨store.update tokenId (fun c => { c with status := .revoked }), ?_, ?_, hget1⟩
  · simp [revoke, hget, hown]
  · have hidem := Store.update_update store tokenId r (fun c => { c with status := .revoked })
      hget hid rfl
    simp only [revoke, hget1]
    simp [hown, hidem]

/-- C6 at the sample store: revoking `t1` twice as its owner. -/
theorem revoke_idempotent_witness :
    sampleStore.get "t1" = .ok sampleRecord ∧ sampleRecord.ownerId = "user123"
    ∧ ∃ store1, revoke sampleStore "t1" "user123" = .ok (store1, .revoked)
      ∧ revoke store1 "t1" "user123" = .ok (store1, .revoked)
      ∧ store1.get "t1" = .ok { sampleRecord with status := .revoked } :=
  ⟨rfl, rfl, revoke_idempotent sampleStore "t1" "user123" sampleRecord rfl rfl⟩

/-- C7. Extend never decreases expiresAt: a successful Extend sets the record's
expiresAt to `max(expiresAt, now) + extensionInMinutes` and returns it, and for a
sequence of Extend calls on a tokenId with positive extensions, the stored expiresAt
followed by the values the successful calls return is non-decreasing. -/
theorem extend_never_decreases (store : Store) (tokenId : String) (calls : List ExtendCall)
    (hpos : ∀ c ∈ calls, 0 < c.extensionInMinutes) :
    (∀ now ext caller store2 e, extend store now tokenId ext caller = .ok (store2, e) →
        ∃ r, store.get tokenId = .ok r ∧ e = max r.expiresAt now + ext
          ∧ store2.get tokenId = .ok { r with expiresAt := e })
    ∧ List.Chain' (· ≤ ·)
        ((storedExpiresAt store tokenId).toList ++ extendResults store tokenId calls) := by
  constructor
  · intro now ext caller store2 e h
    obtain ⟨r, hget, _, _, he, hget2⟩ := extend_ok _ _ _ _ _ _ _ h
    exact ⟨r, hget, he, hget2⟩
  · unfold storedExpiresAt
    cases hget : store.get tokenId with
    | error e =>
      simp [extendResults_absent tokenId calls store e hget]
    | ok r =>
      simp only [Option.toList, List.singleton_append, List.chain'_cons']
      have hchain := extendResults_chain tokenId calls hpos store r.expiresAt (by
        intro r2 hr2
        rw [hget] at hr2
        cases hr2
        exact le_refl _)
      exact List.chain'_cons'.mp hchain

/-- C7 at the sample store: two extensions of `t1`, by 30 at minute 10 and by 15 at
minute 20, give 90 and then 105. -/
theorem extend_never_decreases_witness :
    (∀ c ∈ [({ now := 10, extensionInMinutes := 30, callerOwnerId := "user123" } : ExtendCall),
            { now := 20, extensionInMinutes := 15, callerOwnerId := "user123" }],
        0 < c.extensionInMinutes)
    ∧ extendResults sampleStore "t1"
        [{ now := 10, extensionInMinutes := 30, callerOwnerId := "user123" },
         { now := 20, extensionInMinutes := 15, callerOwnerId := "user123" }] = [90, 105]
    ∧ List.Chain' (· ≤ ·)
        ((storedExpiresAt sampleStore "t1").toList ++ extendResults sampleStore "t1"
          [{ now := 10, extensionInMinutes := 30, callerOwnerId := "user123" },
           { now := 20, extensionInMinutes := 15, callerOwnerId := "user123" }]) :=
  ⟨by decide, by decide,
    (extend_never_decreases sampleStore "t1"
      [{ now := 10, extensionInMinutes := 30, callerOwnerId := "user123" },
       { now := 20, extensionInMinutes := 15, callerOwnerId := "user123" }] (by decide)).2⟩

/-- C8. For a presented token that decodes and whose record is in the store, Authorize
accepts exactly when the record's status is active and now is before expiresAt; with
the stored status still active and expiresAt passed it fails with TokenExpiredError;
with status revoked it fails with TokenRevokedError. -/
theorem authorize_active_unexpired_only (codec : Codec) (store : Store) (now : Int)
    (presentedToken : String) (payload : TokenPayload) (r : TokenRecord)
    (hdec : codec presentedToken = .ok payload) (hget : store.get payload.tokenId = .ok r) :
    (∀ result, authorize codec store now presentedToken = .ok result →
        r.status = .active ∧ now < r.expiresAt ∧ result = (r.ownerId, r.tokenId))
    ∧ (r.status = .active → now < r.expiresAt →
        authorize codec store now presentedToken = .ok (r.ownerId, r.tokenId))
    ∧ (r.status = .active → r.expiresAt ≤ now →
        authorize codec store now presentedToken = .error .TokenExpiredError)
    ∧ (r.status = .revoked →
        authorize codec store now presentedToken = .error .TokenRevokedError) := by
  have hauth : authorize codec store now presentedToken
      = match effectiveStatus now r with
        | .revoked => .error .TokenRevokedError
        | .expired => .error .TokenExpiredError
        | .active => .ok (r.ownerId, r.tokenId) := by
    simp [authorize, hdec, hget]
  rw [hauth]
  unfold effectiveStatus
  refine ⟨?_, ?_, ?_, ?_⟩
  · intro result hres
    cases hst : r.status with
    | active =>
      rw [hst] at hres
      by_cases hnow : now ≥ r.expiresAt
      · simp [hnow] at hres
      · simp only [hnow, if_false] at hres
        cases hres
        exact ⟨rfl, lt_of_not_ge hnow, rfl⟩
    | expired =>
      rw [hst] at hres
      cases hres
    | revoked =>
      rw [hst] at hres
      cases hres
  · intro hst hnow
    have : ¬ now ≥ r.expiresAt := not_le.mpr hnow
    simp [hst, this]
  · intro hst hnow
    simp [hst, hnow]
  · intro hst
    simp [hst]

/-- C8 at the sample store, at minute 75: the record of `T1` is stored active with
expiresAt 60, and Authorize fails with TokenExpiredError. -/
theorem authorize_active_unexpired_only_witness :
    sampleCodec "T1" = .ok samplePayload
    ∧ sampleStore.get "t1" = .ok sampleRecord
    ∧ sampleRecord.status = .active
    ∧ authorize sampleCodec sampleStore 75 "T1" = .error .TokenExpiredError
    ∧ authorize sampleCodec sampleStore 59 "T1" = .ok ("user123", "t1") :=
  ⟨rfl, rfl, rfl,
    (authorize_active_unexpired_only sampleCodec sampleStore 75 "T1" _ sampleRecord rfl rfl).2.2.1
      rfl (by decide),
    (authorize_active_unexpired_only sampleCodec sampleStore 59 "T1" _ sampleRecord rfl rfl).2.1
      rfl (by decide)⟩

/-- C9. Ownership isolation: for distinct owners A and B, the records List selects for
A never include a record whose ownerId is B, and its answer is the public view of those
records; ListMine answers for the owner Authorize resolves from the token of the
`Authorization` header; and the list requests of `main` carry an empty body and that one
header, nothing else that names an owner. -/
theorem listMine_ownership_isolation (codec : Codec) (store : Store) (now : Int)
    (ownerA ownerB : String) (hAB : ownerA ≠ ownerB) :
    (∀ r ∈ store.listByOwner ownerA, r.ownerId = ownerA ∧ r.ownerId ≠ ownerB)
    ∧ listTokens store now ownerA = (store.listByOwner ownerA).map (publicView now)
    ∧ (∀ headers views, listMine codec store now headers = .ok views →
        ∃ h owner tokenId, headers.find? (fun h => h.1 = "Authorization") = some h
          ∧ authorize codec store now (String.mk (h.2.toList.drop 7)) = .ok (owner, tokenId)
          ∧ views = listTokens store now owner)
    ∧ (∀ lib envVar net r, r ∈ requests (main lib envVar net) →
        r.url = TIM_API_URL envVar ++ "/jwt/custom/list/me" →
        r.data = .obj [] ∧ ∃ token, r.headers = [("Authorization", "Bearer " ++ token)]) := by
  refine ⟨?_, rfl, ?_, ?_⟩
  · intro r hr
    have hown : r.ownerId = ownerA := by
      simpa [Store.listByOwner] using (List.mem_filter.mp hr).2
    exact ⟨hown, by rw [hown]; exact hAB⟩
  · intro headers views h
    unfold listMine at h
    split at h
    · cases h
    · next owner tokenId hguard =>
      cases h
      unfold authorizationGuard at hguard
      split at hguard
      · cases hguard
      · next hd hfind =>
        split at hguard
        · exact ⟨hd, owner, tokenId, hfind, hguard, rfl⟩
        · cases hguard
  · intro lib envVar net r hr hurl
    have hne : ∀ (a b : String), a ≠ b → TIM_API_URL envVar ++ a ≠ TIM_API_URL envVar ++ b :=
      fun a b hab h => hab (string_append_left_cancel _ _ _ h)
    rcases main_shape lib envVar net with ⟨data, token, tokenId, _, _, _, hshape, _⟩
      | ⟨_, hreq, _, _⟩
    · have hmem := shape_mem _ _ _ _ hshape r hr
      simp only [plannedRequests, List.mem_cons, List.mem_singleton, List.not_mem_nil,
        or_false] at hmem
      rcases hmem with h | h | h | h | h
      · subst h
        exact absurd hurl (hne _ _ (by decide))
      · subst h
        exact ⟨rfl, token, rfl⟩
      · subst h
        exact absurd hurl (hne _ _ (by decide))
      · subst h
        exact ⟨rfl, token, rfl⟩
      · subst h
        exact absurd hurl (hne _ _ (by decide))
    · rw [hreq] at hr
      simp only [List.mem_singleton] at hr
      subst hr
      exact absurd hurl (hne _ _ (by decide))

/-- C9 at the sample store: listing for `user123` selects the record `t1` only, not the
record of `user456`, also through the header `Bearer T1`. -/
theorem listMine_ownership_isolation_witness :
    "user123" ≠ "user456"
    ∧ sampleStore.listByOwner "user123" = [sampleRecord]
    ∧ listMine sampleCodec sampleStore 10 [("Authorization", "Bearer T1")]
        = .ok [publicView 10 sampleRecord]
    ∧ ∀ r ∈ sampleStore.listByOwner "user123", r.ownerId = "user123" ∧ r.ownerId ≠ "user456" :=
  ⟨by decide, by decide, by rfl,
    (listMine_ownership_isolation sampleCodec sampleStore 10 "user123" "user456" (by decide)).1⟩

end TIM
